import Mathlib

/-!
# Meson AppImage launcher: `AppRun` (multi-tool selector) and the exe `wrapper`

A shallow embedding of `packages/appimage/apprun/{common.h, common.c, AppRun.c, wrapper.c}`.

* C strings are `String`s (the characters before the terminating NUL); a `char*` that may be
  `NULL` is an `Option String`.
* The process environment is a map from variable names to values; `getenv`, `setenv` and
  `putenv` follow POSIX/glibc, `putenv` parsing its `NAME=value` argument at the first `=`.
* `snprintf(buf, size, ...)` keeps at most `size - 1` characters of the formatted text.  The
  sizes are sums of lengths of strings that live in memory together with the small constants
  2 or 3, so `size_t` arithmetic does not wrap and is done in `Nat`; `malloc` is assumed to
  succeed.
* `char* args[n]` after `memset` is a list of `n` `NULL` slots; a store outside the bounds is
  undefined behaviour and is reported as such.
* Printing (`LOG`, `logArgs`, `print_help`) has no effect on the state modelled here and is
  left out; the value of `g_verbose` is kept.
* `execv` is the boundary: an outcome `handoff path args env verbose` records the call
  `execv(path, args)` made in environment `env`.
-/

namespace AppRun

/-! ## C library -/

/-- The process environment, a map from names to values (`none`: unset). -/
abbrev Env := String → Option String

/-- The C `strlen`. -/
def strlen (s : String) : Nat := s.data.length

/-- The text `snprintf(buf, size, fmt, ...)` leaves in `buf`, given the fully formatted
text: at most `size - 1` characters are stored before the terminating NUL. -/
def snprintf (size : Nat) (formatted : String) : String :=
  ⟨formatted.data.take (size - 1)⟩

/-- Character-wise comparison behind `strcmp`; only the sign of the result is specified. -/
def strcmpAux : List Char → List Char → Int
  | [], [] => 0
  | [], _ :: _ => -1
  | _ :: _, [] => 1
  | a :: as, b :: bs => if a = b then strcmpAux as bs else if a < b then -1 else 1

/-- The C `strcmp`. -/
def strcmp (a b : String) : Int := strcmpAux a.data b.data

/-- Character-wise comparison behind `strncmp`: at most `n` characters are compared. -/
def strncmpAux : Nat → List Char → List Char → Int
  | 0, _, _ => 0
  | _ + 1, [], [] => 0
  | _ + 1, [], _ :: _ => -1
  | _ + 1, _ :: _, [] => 1
  | n + 1, a :: as, b :: bs =>
    if a = b then strncmpAux n as bs else if a < b then -1 else 1

/-- The C `strncmp`. -/
def strncmp (a b : String) (n : Nat) : Int := strncmpAux n a.data b.data

/-- The C `getenv`. -/
def getenv (env : Env) (name : String) : Option String := env name

/-- The C `setenv(name, value, overwrite)`: fails with `EINVAL`, leaving the environment as it
is, when `name` is empty or contains `=`; the callers ignore the return value. -/
def setenv (env : Env) (name value : String) (overwrite : Bool) : Env :=
  if name.data = [] ∨ '=' ∈ name.data then env
  else if !overwrite && (env name).isSome then env
  else fun n => if n = name then some value else env n

/-- The C `putenv(string)`: `string` has the form `NAME=value`, split at the first `=`;
without any `=` glibc removes the variable of that name. -/
def putenv (env : Env) (string : String) : Env :=
  match string.data.span (fun c => c != '=') with
  | (name, '=' :: value) => fun n => if n = String.mk name then some (String.mk value) else env n
  | (name, _) => fun n => if n = String.mk name then none else env n

/-- Index of the last `/` among the first `n` characters (`memrchr(path, '/', n)`). -/
def memrchrSlash (s : List Char) : Nat → Option Nat
  | 0 => none
  | n + 1 => if s.get? n = some '/' then some n else memrchrSlash s n

/-- The loop `for (runp = p; runp != path; --runp) if (runp[-1] != '/') break;` of glibc's
`dirname`, on indices. -/
def skipSlashes (s : List Char) : Nat → Nat
  | 0 => 0
  | r + 1 => if s.get? r = some '/' then skipSlashes s r else r + 1

/-- The C `dirname` (glibc): `"."` for `NULL`, for the empty string and for a path without
`/`; never `NULL`. -/
def dirname (path : Option String) : Option String :=
  match path with
  | none => some "."
  | some p =>
    let s := p.data
    let last_slash := memrchrSlash s s.length
    let last_slash :=
      match last_slash with
      | some l =>
        if l ≠ 0 ∧ l + 1 = s.length then
          let runp := skipSlashes s l
          if runp ≠ 0 then memrchrSlash s runp else some l
        else some l
      | none => none
    match last_slash with
    | some l =>
      let runp := skipSlashes s l
      let cut := if runp = 0 then (if l = 1 then 2 else 1) else runp
      some ⟨s.take cut⟩
    | none => some "."

/-! ## common.h, common.c -/

/-- The macro `VAR_PREFIX`. -/
def VAR_PREFIX : String := "MESON_AppRun_"

/-- The macro `FAKEBIN`. -/
def FAKEBIN : String := "fakebin"

/-- The struct `AppRunInfo_t` once `appdir` is known to be non-NULL. -/
structure AppRunInfo where
  appdir : String
  appimage_path : Option String
  path : String
  ld_linux : String
  ld_library_path : String
  pythonhome : String

/-- The function `absolute(info, relpath)`; of `info` it reads `info->appdir` only, which is
passed here directly. -/
def absolute (appdir relpath : String) : String :=
  let absLen := strlen appdir + strlen relpath + 2
  snprintf absLen (appdir ++ "/" ++ relpath)

/-- The function `info_autofill_paths`; `none` is the `DIE` on a NULL `appdir`. -/
def info_autofill_paths (appdir appimage_path : Option String) : Option AppRunInfo :=
  match appdir with
  | none => none
  | some d =>
    some { appdir := d
           appimage_path := appimage_path
           path := absolute d FAKEBIN
           ld_linux := absolute d "usr/lib/ld-linux.so"
           ld_library_path := absolute d "usr/lib"
           pythonhome := absolute d "usr" }

/-- The function `envPrepend(var, val)`. -/
def envPrepend (env : Env) (var val : String) : Env :=
  match getenv env var with
  | none => setenv env var val true
  | some curr =>
    let len := strlen var + strlen val + strlen curr + 3
    let res := snprintf len (var ++ "=" ++ val ++ ":" ++ curr)
    putenv env res

/-! ## Argument arrays and outcomes -/

/-- A C array `char* args[n]`; `none` is a NULL slot. -/
abbrev ArgArr := List (Option String)

/-- The array `char* args[n]` after `memset(&args, 0, sizeof(args))`. -/
def ArgArr.zeroed (n : Nat) : ArgArr := List.replicate n none

/-- The store `args[i] = v`; `none` when `i` is outside the array. -/
def ArgArr.write (args : ArgArr) (i : Nat) (v : Option String) : Option ArgArr :=
  if i < args.length then some (args.set i v) else none

/-- The argument vector `execv` (and `logArgs`) reads from an array: the strings before the
first NULL slot. -/
def argvOf : ArgArr → List String
  | some s :: rest => s :: argvOf rest
  | _ => []

/-- How a run of one of the two programs ends. -/
inductive Outcome where
  /-- The call `exit(status)` before any `execv`, in environment `env`. -/
  | terminated (status : Nat) (env : Env)
  /-- The call `execv(path, args)` in environment `env`, with `g_verbose = verbose`. -/
  | handoff (path : String) (args : ArgArr) (env : Env) (verbose : Bool)
  /-- Undefined behaviour: a store outside `args`, or NULL given to `setenv`/`execv`. -/
  | undefined

/-- The program and the argument array given to `execv`, when the run reaches it. -/
def Outcome.execv? : Outcome → Option (String × ArgArr)
  | Outcome.handoff path args _ _ => some (path, args)
  | _ => none

/-- The environment in which the run ends, unless its behaviour is undefined. -/
def Outcome.env? : Outcome → Option Env
  | Outcome.terminated _ env => some env
  | Outcome.handoff _ _ env _ => some env
  | Outcome.undefined => none

/-- The loop `for (...; i < argc; i++) args[counter++] = argv[i];`, given the arguments
`argv[i], argv[i+1], ...` still to be copied; returns the array and the final `counter`. -/
def copyArgs : List String → Nat → ArgArr → Option (ArgArr × Nat)
  | [], counter, args => some (args, counter)
  | a :: rest, counter, args =>
    match args.write counter (some a) with
    | none => none
    | some args1 => copyArgs rest (counter + 1) args1

/-! ## AppRun.c -/

/-- How the flag loop of `AppRun.c` ends. -/
inductive Scan where
  /-- The call `exit(status)` inside the loop. -/
  | stop (status : Nat)
  /-- The loop was left with index `i`, program `prog` and `g_verbose = verbose`. -/
  | done (i : Nat) (prog : String) (verbose : Bool)
  deriving DecidableEq

/-- The loop `for (; i < argc; i++)` that parses the `--apprun` arguments, given the
arguments `argv[i], argv[i+1], ...` not yet looked at. -/
def parseArgs : List String → Nat → String → Bool → Scan
  | [], i, prog, verbose => Scan.done i prog verbose
  | arg :: rest, i, prog, verbose =>
    if strncmp arg "--apprun" 8 ≠ 0 then Scan.done i prog verbose
    else if strcmp arg "--apprun-help" = 0 then Scan.stop 0
    else if strcmp arg "--apprun-version" = 0 then Scan.stop 0
    else if strcmp arg "--apprun-verbose" = 0 then parseArgs rest (i + 1) prog true
    else if strcmp arg "--apprun-meson" = 0 then
      parseArgs rest (i + 1) (FAKEBIN ++ "/meson") verbose
    else if strcmp arg "--apprun-ninja" = 0 then
      parseArgs rest (i + 1) (FAKEBIN ++ "/ninja") verbose
    else if strcmp arg "--apprun-cmake" = 0 then
      parseArgs rest (i + 1) (FAKEBIN ++ "/cmake") verbose
    else if strcmp arg "--apprun-pkg-config" = 0 then
      parseArgs rest (i + 1) (FAKEBIN ++ "/pkg-config") verbose
    else if strcmp arg "--apprun-python3" = 0 then
      parseArgs rest (i + 1) (FAKEBIN ++ "/python3") verbose
    else Scan.stop 1

/-- What `main` of `AppRun.c` has built when it reaches `LOG("Meson AppRun ...")`. -/
structure LaunchPlan where
  prog : String
  verbose : Bool
  args : ArgArr
  deriving DecidableEq

/-- Result of the argument handling of `AppRun.c`. -/
inductive Planned where
  /-- The call `exit(status)` inside the flag loop. -/
  | stop (status : Nat)
  /-- A store outside `args`. -/
  | undefined
  /-- The loops ran through. -/
  | plan (p : LaunchPlan)
  deriving DecidableEq

/-- The flag loop as `main` of `AppRun.c` enters it: `i = 1`, `prog = FAKEBIN "/meson"`,
`g_verbose = 0`. -/
def AppRun_scan (argv : List String) : Scan :=
  parseArgs (argv.drop 1) 1 (FAKEBIN ++ "/meson") false

/-- The argument handling of `main` in `AppRun.c`, from `int i = 1;` to
`args[counter++] = NULL;`, for the bundle root `appdir`. -/
def AppRun_plan (appdir : String) (argv : List String) : Planned :=
  let args := ArgArr.zeroed (argv.length + 1)
  match AppRun_scan argv with
  | Scan.stop status => Planned.stop status
  | Scan.done i prog verbose =>
    match copyArgs (argv.drop i) 1 args with
    | none => Planned.undefined
    | some (args1, counter) =>
      match args1.write 0 (some (absolute appdir prog)) with
      | none => Planned.undefined
      | some args2 =>
        match args2.write counter none with
        | none => Planned.undefined
        | some args3 => Planned.plan { prog := prog, verbose := verbose, args := args3 }

/-- The environment set-up of `main` in `AppRun.c` (`// Setup env vars`); `none` when
`info.appimage_path` is NULL, which `setenv` must not be given. -/
def AppRun_env (info : AppRunInfo) (verbose : Bool) (env : Env) : Option Env :=
  let env1 := setenv env (VAR_PREFIX ++ "APPDIR") info.appdir true
  match info.appimage_path with
  | none => none
  | some image =>
    let env2 := setenv env1 (VAR_PREFIX ++ "APPIMAGE") image true
    let env3 := envPrepend env2 "PATH" info.path
    some (if verbose then putenv env3 (VAR_PREFIX ++ "VERBOSE=1") else env3)

/-- The function `main` of `AppRun.c`.  `realpath` is the file system's answer to
`realpath(path, NULL)` (`none`: NULL); `realpath(argv[0])` is NULL when `argv[0]` is. -/
def AppRun_main (realpath : String → Option String) (env : Env) (argv : List String) :
    Outcome :=
  let appdir := dirname (realpath "/proc/self/exe")
  let appimage_path := argv.head?.bind realpath
  match appdir with
  | none => Outcome.terminated 1 env
  | some _ =>
    match info_autofill_paths appdir appimage_path with
    | none => Outcome.terminated 1 env
    | some info =>
      match AppRun_plan info.appdir argv with
      | Planned.stop status => Outcome.terminated status env
      | Planned.undefined => Outcome.undefined
      | Planned.plan p =>
        match AppRun_env info p.verbose env with
        | none => Outcome.undefined
        | some env1 =>
          match p.args.head? with
          | some (some path) => Outcome.handoff path p.args env1 p.verbose
          | _ => Outcome.undefined

/-! ## wrapper.c -/

/-- A compile-time flag that is 0 or 1, as a number. -/
def flag (b : Bool) : Nat := if b then 1 else 0

/-- The argument rewriting of `main` in `wrapper.c`, from
`counter = 2 + IS_PYTHON_SCRIPT - STATICALLY_LINKED;` to the `#endif` closing the stores to
`args[0..2]`; `none` is a store outside `args`. -/
def wrapper_args (IS_PYTHON_SCRIPT STATICALLY_LINKED : Bool) (REAL_EXE : String)
    (info : AppRunInfo) (argv : List String) : Option ArgArr :=
  let args := ArgArr.zeroed (argv.length + 3)
  let counter := 2 + flag IS_PYTHON_SCRIPT - flag STATICALLY_LINKED
  match copyArgs (argv.drop 1) counter args with
  | none => none
  | some (args1, counter1) =>
    match args1.write counter1 none with
    | none => none
    | some args2 =>
      if IS_PYTHON_SCRIPT then
        match args2.write 0 (some info.ld_linux) with
        | none => none
        | some a0 =>
          match a0.write 1 (some (absolute info.appdir "usr/bin/python3")) with
          | none => none
          | some a1 => a1.write 2 (some (absolute info.appdir ("usr/bin/" ++ REAL_EXE)))
      else if STATICALLY_LINKED then
        args2.write 0 (some (absolute info.appdir ("usr/bin/" ++ REAL_EXE)))
      else
        match args2.write 0 (some info.ld_linux) with
        | none => none
        | some a0 => a0.write 1 (some (absolute info.appdir ("usr/bin/" ++ REAL_EXE)))

/-- The environment set-up of `main` in `wrapper.c` (`// Set the env vars`). -/
def wrapper_env (STATICALLY_LINKED : Bool) (info : AppRunInfo) (env : Env) : Env :=
  let env1 :=
    if !STATICALLY_LINKED then
      let old_ld := (getenv env "LD_LIBRARY_PATH").getD ""
      let e := setenv env (VAR_PREFIX ++ "LD_LIBRARY_PATH") old_ld true
      envPrepend e "LD_LIBRARY_PATH" info.ld_library_path
    else env
  let env2 := setenv env1 "PYTHONHOME" info.pythonhome true
  putenv env2 "PYTHONDONTWRITEBYTECODE=1"

/-- The test `verbose && verbose[0] != '0'` of `wrapper.c`; `verbose[0]` of the empty
string is the terminating NUL. -/
def wrapper_verbose (verbose : Option String) : Bool :=
  match verbose with
  | none => false
  | some v => v.data.head? != some '0'

/-- The function `main` of `wrapper.c`, for the compile-time settings `IS_PYTHON_SCRIPT`,
`STATICALLY_LINKED` (each 0 or 1) and `REAL_EXE`. -/
def wrapper_main (IS_PYTHON_SCRIPT STATICALLY_LINKED : Bool) (REAL_EXE : String)
    (env : Env) (argv : List String) : Outcome :=
  let appdir := getenv env (VAR_PREFIX ++ "APPDIR")
  match appdir with
  | none => Outcome.terminated 1 env
  | some _ =>
    let g_verbose := wrapper_verbose (getenv env (VAR_PREFIX ++ "VERBOSE"))
    match info_autofill_paths appdir none with
    | none => Outcome.terminated 1 env
    | some info =>
      match wrapper_args IS_PYTHON_SCRIPT STATICALLY_LINKED REAL_EXE info argv with
      | none => Outcome.undefined
      | some args =>
        let env1 := wrapper_env STATICALLY_LINKED info env
        match args.head? with
        | some (some path) => Outcome.handoff path args env1 g_verbose
        | _ => Outcome.undefined

/-! ## Notions of the specification, used to state the properties -/

/-- The string `a` begins with the string `p`. -/
def beginsWith (p a : String) : Bool := p.data.isPrefixOf a.data

/-- The flag phase of an argument vector: the arguments from `argv[1]` on up to, and not
including, the first one that does not begin with the self-prefix `--apprun`. -/
def flagPhase (argv : List String) : List String :=
  (argv.drop 1).takeWhile (beginsWith "--apprun")

/-- The index `k` at which the flag phase ends: the least index from 1 on whose argument
does not begin with the self-prefix, `argc` when there is none. -/
def flagPhaseEnd (argv : List String) : Nat := 1 + (flagPhase argv).length

/-- The bundled-tool path a program-selector flag stands for. -/
def selectorTool (a : String) : Option String :=
  if a = "--apprun-meson" then some "fakebin/meson"
  else if a = "--apprun-ninja" then some "fakebin/ninja"
  else if a = "--apprun-cmake" then some "fakebin/cmake"
  else if a = "--apprun-pkg-config" then some "fakebin/pkg-config"
  else if a = "--apprun-python3" then some "fakebin/python3"
  else none

/-- The target left by a scan that starts with the target `prog` and passes the flags
`flags`: the tool of the last program-selector flag among them, else `prog`. -/
def toolAfter (prog : String) (flags : List String) : String :=
  ((flags.filterMap selectorTool).getLast?).getD prog

/-- The target the specification assigns to a flag phase: the tool of its last
program-selector flag, `fakebin/meson` when it has none. -/
def chosenTool (flags : List String) : String :=
  ((flags.filterMap selectorTool).getLast?).getD "fakebin/meson"

/-- The flags the selector recognises: help, version, verbose, five program selectors. -/
def recognised : List String :=
  ["--apprun-help", "--apprun-version", "--apprun-verbose", "--apprun-meson",
   "--apprun-ninja", "--apprun-cmake", "--apprun-pkg-config", "--apprun-python3"]

/-- The recognised flags after which the scan goes on: verbose and the program
selectors. -/
def continuing : List String :=
  ["--apprun-verbose", "--apprun-meson", "--apprun-ninja", "--apprun-cmake",
   "--apprun-pkg-config", "--apprun-python3"]

/-! ## Sample inputs -/

/-- A host environment with `PATH=/usr/bin` and nothing else. -/
def hostEnv : Env := fun n => if n = "PATH" then some "/usr/bin" else none

/-- An environment as the selector leaves it for the bundle root `/tmp/m`. -/
def bundleEnv : Env := fun n =>
  if n = "MESON_AppRun_APPDIR" then some "/tmp/m"
  else if n = "PATH" then some "/tmp/m/fakebin:/usr/bin"
  else none

/-- A file system in which the running binary is `/tmp/m/AppRun` and `./meson.AppImage`
resolves to `/home/u/meson.AppImage`. -/
def sampleRealpath : String → Option String := fun p =>
  if p = "/proc/self/exe" then some "/tmp/m/AppRun"
  else if p = "./meson.AppImage" then some "/home/u/meson.AppImage"
  else none

/-- The struct `info` as `info_autofill_paths` fills it for the bundle root `root`. -/
def bundleInfo (root : String) (appimage_path : Option String) : AppRunInfo :=
  { appdir := root
    appimage_path := appimage_path
    path := absolute root FAKEBIN
    ld_linux := absolute root "usr/lib/ld-linux.so"
    ld_library_path := absolute root "usr/lib"
    pythonhome := absolute root "usr" }

/-- A file system in which `/proc/self/exe` cannot be resolved while `./meson.AppImage`
resolves to `/home/u/meson.AppImage`. -/
def noProcRealpath : String → Option String := fun p =>
  if p = "./meson.AppImage" then some "/home/u/meson.AppImage" else none

/-- An environment whose bundle-root marker holds the relative path `bundle`. -/
def relativeEnv : Env := fun n =>
  if n = "MESON_AppRun_APPDIR" then some "bundle" else none

/-- An environment with the bundle root `/tmp/m`, `LD_LIBRARY_PATH=/cur/lib` and the saved
marker `MESON_AppRun_LD_LIBRARY_PATH=/host/lib`. -/
def savedEnv : Env := fun n =>
  if n = "MESON_AppRun_APPDIR" then some "/tmp/m"
  else if n = "LD_LIBRARY_PATH" then some "/cur/lib"
  else if n = "MESON_AppRun_LD_LIBRARY_PATH" then some "/host/lib"
  else none

/-- A host environment with `PATH=/usr/bin` and `LD_LIBRARY_PATH=/opt/lib`. -/
def libraryEnv : Env := fun n =>
  if n = "PATH" then some "/usr/bin"
  else if n = "LD_LIBRARY_PATH" then some "/opt/lib"
  else none

/-- The environment `bundleEnv` with `MESON_AppRun_VERBOSE` set to the empty string. -/
def emptyVerboseEnv : Env := fun n =>
  if n = "MESON_AppRun_VERBOSE" then some "" else bundleEnv n

/-! ## Facts about the C library model -/

theorem strlen_append (a b : String) : strlen (a ++ b) = strlen a + strlen b := by
  simp [strlen, String.data_append]

theorem snprintf_fits (size : Nat) (formatted : String) (h : strlen formatted < size) :
    snprintf size formatted = formatted := by
  unfold snprintf
  have hle : formatted.data.length ≤ size - 1 := by
    unfold strlen at h
    omega
  rw [List.take_of_length_le hle]

theorem strcmpAux_eq_zero (a b : List Char) : strcmpAux a b = 0 ↔ a = b := by
  induction a generalizing b with
  | nil => cases b <;> simp [strcmpAux]
  | cons x xs ih =>
    cases b with
    | nil => simp [strcmpAux]
    | cons y ys =>
      by_cases hxy : x = y
      · simp [strcmpAux, hxy, ih]
      · by_cases hlt : x < y <;> simp [strcmpAux, hxy, hlt]

theorem strcmp_eq_zero (a b : String) : strcmp a b = 0 ↔ a = b := by
  unfold strcmp
  rw [strcmpAux_eq_zero]
  constructor
  · intro h
    exact String.ext h
  · intro h
    rw [h]

theorem strncmpAux_eq_zero (n : Nat) (a b : List Char) :
    strncmpAux n a b = 0 ↔ a.take n = b.take n := by
  induction n generalizing a b with
  | zero => simp [strncmpAux]
  | succ m ih =>
    cases a with
    | nil => cases b <;> simp [strncmpAux]
    | cons x xs =>
      cases b with
      | nil => simp [strncmpAux]
      | cons y ys =>
        by_cases hxy : x = y
        · simp [strncmpAux, hxy, ih]
        · by_cases hlt : x < y <;> simp [strncmpAux, hxy, hlt]

theorem strncmp_self_iff (a : String) :
    strncmp a "--apprun" 8 = 0 ↔ beginsWith "--apprun" a = true := by
  unfold strncmp beginsWith
  rw [strncmpAux_eq_zero, List.isPrefixOf_iff_prefix, List.prefix_iff_eq_take]
  constructor
  · intro h
    show "--apprun".data = List.take 8 a.data
    rw [h]
    rfl
  · intro h
    have h8 : "--apprun".data.length = 8 := rfl
    rw [h8] at h
    rw [← h]
    rfl

theorem span_first_eq (name value : List Char) (h : '=' ∉ name) :
    (name ++ '=' :: value).span (fun c => c != '=') = (name, '=' :: value) := by
  induction name with
  | nil => simp [List.span_eq_take_drop]
  | cons c cs ih =>
    have hc : c ≠ '=' := fun e => h (by simp [e])
    have hcs : '=' ∉ cs := fun e => h (by simp [e])
    have := ih hcs
    have hb : (c != '=') = true := by simp [hc]
    simp [List.span_eq_take_drop] at this ⊢
    simp [List.takeWhile, List.dropWhile, hb, this]

theorem putenv_assign (env : Env) (name value : String) (h : '=' ∉ name.data) :
    putenv env (name ++ "=" ++ value) =
      fun n => if n = name then some value else env n := by
  unfold putenv
  have hd : (name ++ "=" ++ value).data = name.data ++ '=' :: value.data := by
    simp [String.data_append]
  rw [hd, span_first_eq _ _ h]
  rfl

theorem setenv_assign (env : Env) (name value : String) (hne : name.data ≠ [])
    (h : '=' ∉ name.data) :
    setenv env name value true = fun n => if n = name then some value else env n := by
  unfold setenv
  simp [hne, h]

theorem absolute_eq (appdir relpath : String) :
    absolute appdir relpath = appdir ++ "/" ++ relpath := by
  unfold absolute
  apply snprintf_fits
  simp only [strlen_append]
  simp [strlen]
  omega

theorem envPrepend_fits (var val curr : String) :
    snprintf (strlen var + strlen val + strlen curr + 3) (var ++ "=" ++ val ++ ":" ++ curr) =
      var ++ "=" ++ val ++ ":" ++ curr := by
  apply snprintf_fits
  simp only [strlen_append]
  simp [strlen]
  omega

theorem envPrepend_unset (env : Env) (var val : String) (hne : var.data ≠ [])
    (h : '=' ∉ var.data) (hu : env var = none) :
    envPrepend env var val = fun n => if n = var then some val else env n := by
  unfold envPrepend getenv
  rw [hu]
  exact setenv_assign env var val hne h

theorem envPrepend_set (env : Env) (var val curr : String) (h : '=' ∉ var.data)
    (hs : env var = some curr) :
    envPrepend env var val =
      fun n => if n = var then some (val ++ ":" ++ curr) else env n := by
  unfold envPrepend getenv
  rw [hs]
  show putenv env (snprintf _ _) = _
  rw [envPrepend_fits]
  have : var ++ "=" ++ val ++ ":" ++ curr = var ++ "=" ++ (val ++ ":" ++ curr) := by
    simp [String.append_assoc]
  rw [this, putenv_assign env var _ h]

theorem dirname_some (path : Option String) : ∃ d, dirname path = some d := by
  unfold dirname
  cases path with
  | none => exact ⟨_, rfl⟩
  | some p =>
    simp only
    split
    · exact ⟨_, rfl⟩
    · exact ⟨_, rfl⟩

/-! ## The path composer -/

/-- C2: `absolute(bundleRoot, relativePath)` is `bundleRoot`, one `/`, `relativePath`: the
buffer of `len + len + 2` bytes never truncates the formatted text, the result has length
`len(bundleRoot) + len(relativePath) + 1`, and its characters are those of `bundleRoot`,
then the single separator, then those of `relativePath`.  Being a function of the two
strings alone, it is total and depends on nothing else. -/
theorem absolute_concat (bundleRoot relativePath : String) :
    absolute bundleRoot relativePath = bundleRoot ++ "/" ++ relativePath ∧
    snprintf (strlen bundleRoot + strlen relativePath + 2)
        (bundleRoot ++ "/" ++ relativePath) = bundleRoot ++ "/" ++ relativePath ∧
    strlen (absolute bundleRoot relativePath) = strlen bundleRoot + strlen relativePath + 1 ∧
    (absolute bundleRoot relativePath).data = bundleRoot.data ++ '/' :: relativePath.data := by
  have h := absolute_eq bundleRoot relativePath
  refine ⟨h, h, ?_, ?_⟩
  · rw [h]
    simp only [strlen_append]
    simp [strlen]
    omega
  · rw [h]
    simp [String.data_append]

/-- C3: for every bundle root, `absolute(bundleRoot, ·)` is injective in the suffix, and
`bundleRoot` is a prefix of `absolute(bundleRoot, s)` for every `s`. -/
theorem absolute_injective_begins (bundleRoot : String) :
    Function.Injective (absolute bundleRoot) ∧
    ∀ s : String, (∃ t : String, absolute bundleRoot s = bundleRoot ++ t) ∧
      bundleRoot.data <+: (absolute bundleRoot s).data := by
  constructor
  · intro s1 s2 h
    rw [absolute_eq, absolute_eq] at h
    have hd := congrArg String.data h
    simp only [String.data_append, List.append_assoc] at hd
    have := List.append_cancel_left (List.append_cancel_left hd)
    exact String.ext this
  · intro s
    rw [absolute_eq]
    refine ⟨⟨"/" ++ s, by simp [String.append_assoc]⟩, ?_⟩
    simp only [String.data_append, List.append_assoc]
    exact List.prefix_append _ _

/-- Two suffixes with the same absolute path under `/opt/bundle` are equal, here at
`usr/lib`, and the path begins with the bundle root. -/
theorem absolute_injective_begins_witness :
    (absolute "/opt/bundle" "usr/lib" = absolute "/opt/bundle" "usr/lib" → "usr/lib" = "usr/lib") ∧
    absolute "/opt/bundle" "usr/lib" = "/opt/bundle" ++ "/usr/lib" :=
  ⟨fun h => (absolute_injective_begins "/opt/bundle").1 h, by decide⟩

/-! ## The environment composer -/

/-- C1: `envPrepend(var, val)` on a variable name `var` (non-empty, without `=`): when
`var` is unset its value becomes exactly `val`; when it is set to `V`, the empty string
included, its value becomes `val ++ ":" ++ V`, the characters of `val`, a colon and the
old value `V` unchanged as the suffix; the buffer of
`strlen(var) + strlen(val) + strlen(V) + 3` bytes truncates nothing. -/
theorem envPrepend_value (env : Env) (var val : String)
    (hne : var.data ≠ []) (heq : '=' ∉ var.data) :
    (getenv env var = none → getenv (envPrepend env var val) var = some val) ∧
    (∀ V : String, getenv env var = some V →
      getenv (envPrepend env var val) var = some (val ++ ":" ++ V) ∧
      (val ++ ":" ++ V).data = val.data ++ ':' :: V.data ∧
      snprintf (strlen var + strlen val + strlen V + 3) (var ++ "=" ++ val ++ ":" ++ V) =
        var ++ "=" ++ val ++ ":" ++ V) := by
  constructor
  · intro hu
    unfold getenv at hu ⊢
    rw [envPrepend_unset env var val hne heq hu]
    simp
  · intro V hs
    unfold getenv at hs ⊢
    rw [envPrepend_set env var val V heq hs]
    refine ⟨by simp, by simp [String.data_append], envPrepend_fits var val V⟩

/-- On `PATH=/usr/bin`, prepending `/b/fakebin` to `PATH` gives `/b/fakebin:/usr/bin`;
prepending to the unset `LD_LIBRARY_PATH` gives the new value alone. -/
theorem envPrepend_value_witness :
    getenv (envPrepend hostEnv "PATH" "/b/fakebin") "PATH" = some "/b/fakebin:/usr/bin" ∧
    getenv (envPrepend hostEnv "LD_LIBRARY_PATH" "/b/usr/lib") "LD_LIBRARY_PATH" =
      some "/b/usr/lib" :=
  ⟨((envPrepend_value hostEnv "PATH" "/b/fakebin" (by decide) (by decide)).2
      "/usr/bin" (by decide)).1,
   (envPrepend_value hostEnv "LD_LIBRARY_PATH" "/b/usr/lib" (by decide) (by decide)).1
      (by decide)⟩

/-! ## The flag loop of the selector -/

theorem parseArgs_cons (arg : String) (rest : List String) (i : Nat) (prog : String)
    (verbose : Bool) :
    parseArgs (arg :: rest) i prog verbose =
      if beginsWith "--apprun" arg = false then Scan.done i prog verbose
      else if arg = "--apprun-help" then Scan.stop 0
      else if arg = "--apprun-version" then Scan.stop 0
      else if arg = "--apprun-verbose" then parseArgs rest (i + 1) prog true
      else if arg = "--apprun-meson" then parseArgs rest (i + 1) "fakebin/meson" verbose
      else if arg = "--apprun-ninja" then parseArgs rest (i + 1) "fakebin/ninja" verbose
      else if arg = "--apprun-cmake" then parseArgs rest (i + 1) "fakebin/cmake" verbose
      else if arg = "--apprun-pkg-config" then
        parseArgs rest (i + 1) "fakebin/pkg-config" verbose
      else if arg = "--apprun-python3" then parseArgs rest (i + 1) "fakebin/python3" verbose
      else Scan.stop 1 := by
  have h1 : FAKEBIN ++ "/meson" = "fakebin/meson" := by decide
  have h2 : FAKEBIN ++ "/ninja" = "fakebin/ninja" := by decide
  have h3 : FAKEBIN ++ "/cmake" = "fakebin/cmake" := by decide
  have h4 : FAKEBIN ++ "/pkg-config" = "fakebin/pkg-config" := by decide
  have h5 : FAKEBIN ++ "/python3" = "fakebin/python3" := by decide
  rw [parseArgs]
  simp only [strcmp_eq_zero, strncmp_self_iff, h1, h2, h3, h4, h5, ne_eq]
  by_cases hb : beginsWith "--apprun" arg = true
  · simp [hb]
  · simp [hb]

theorem getLast?_cons_getD {α : Type} (x d : α) (xs : List α) :
    ((x :: xs).getLast?).getD d = (xs.getLast?).getD x := by
  cases xs with
  | nil => rfl
  | cons y ys => simp [List.getLast?_cons_cons, List.getLast?_eq_getLast]

theorem toolAfter_cons_none (prog a : String) (flags : List String)
    (h : selectorTool a = none) : toolAfter prog (a :: flags) = toolAfter prog flags := by
  simp [toolAfter, List.filterMap_cons, h]

theorem toolAfter_cons_some (prog a t : String) (flags : List String)
    (h : selectorTool a = some t) : toolAfter prog (a :: flags) = toolAfter t flags := by
  simp only [toolAfter, List.filterMap_cons, h]
  exact getLast?_cons_getD _ _ _

theorem parseArgs_done (l : List String) (i : Nat) (prog : String) (verbose : Bool)
    (h : ∀ status, parseArgs l i prog verbose ≠ Scan.stop status) :
    parseArgs l i prog verbose =
      Scan.done (i + (l.takeWhile (beginsWith "--apprun")).length)
        (toolAfter prog (l.takeWhile (beginsWith "--apprun")))
        (verbose || decide ("--apprun-verbose" ∈ l.takeWhile (beginsWith "--apprun"))) := by
  induction l generalizing i prog verbose with
  | nil => simp [parseArgs, toolAfter]
  | cons arg rest ih =>
    rw [parseArgs_cons] at h ⊢
    by_cases hb : beginsWith "--apprun" arg = true
    · have hb' : ¬ (beginsWith "--apprun" arg = false) := by simp [hb]
      rw [if_neg hb'] at h ⊢
      rw [List.takeWhile_cons_of_pos hb]
      by_cases c1 : arg = "--apprun-help"
      · exact absurd (by rw [if_pos c1]) (h 0)
      rw [if_neg c1] at h ⊢
      by_cases c2 : arg = "--apprun-version"
      · exact absurd (by rw [if_pos c2]) (h 0)
      rw [if_neg c2] at h ⊢
      by_cases c3 : arg = "--apprun-verbose"
      · rw [if_pos c3] at h ⊢
        rw [ih _ _ _ h, toolAfter_cons_none _ _ _ (by rw [c3]; decide)]
        simp [c3]
        omega
      rw [if_neg c3] at h ⊢
      have hmem : ∀ v : Bool, (v || decide ("--apprun-verbose" ∈
          arg :: List.takeWhile (beginsWith "--apprun") rest)) =
          (v || decide ("--apprun-verbose" ∈ List.takeWhile (beginsWith "--apprun") rest)) := by
        intro v
        have : ¬ ("--apprun-verbose" = arg) := fun e => c3 e.symm
        simp [this]
      have hlen : ∀ n : Nat, i + 1 + n = i + (n + 1) := by intro n; omega
      by_cases c4 : arg = "--apprun-meson"
      · rw [if_pos c4] at h ⊢
        rw [ih _ _ _ h, toolAfter_cons_some prog _ "fakebin/meson" _ (by rw [c4]; decide),
          hmem, List.length_cons, hlen]
      rw [if_neg c4] at h ⊢
      by_cases c5 : arg = "--apprun-ninja"
      · rw [if_pos c5] at h ⊢
        rw [ih _ _ _ h, toolAfter_cons_some prog _ "fakebin/ninja" _ (by rw [c5]; decide),
          hmem, List.length_cons, hlen]
      rw [if_neg c5] at h ⊢
      by_cases c6 : arg = "--apprun-cmake"
      · rw [if_pos c6] at h ⊢
        rw [ih _ _ _ h, toolAfter_cons_some prog _ "fakebin/cmake" _ (by rw [c6]; decide),
          hmem, List.length_cons, hlen]
      rw [if_neg c6] at h ⊢
      by_cases c7 : arg = "--apprun-pkg-config"
      · rw [if_pos c7] at h ⊢
        rw [ih _ _ _ h, toolAfter_cons_some prog _ "fakebin/pkg-config" _
          (by rw [c7]; decide), hmem, List.length_cons, hlen]
      rw [if_neg c7] at h ⊢
      by_cases c8 : arg = "--apprun-python3"
      · rw [if_pos c8] at h ⊢
        rw [ih _ _ _ h, toolAfter_cons_some prog _ "fakebin/python3" _ (by rw [c8]; decide),
          hmem, List.length_cons, hlen]
      rw [if_neg c8] at h
      exact absurd rfl (h 1)
    · have hb' : beginsWith "--apprun" arg = false := by simpa using hb
      rw [if_pos hb']
      rw [List.takeWhile_cons_of_neg hb]
      simp [toolAfter]

theorem parseArgs_unknown (pre : List String) (bad : String) (post : List String)
    (i : Nat) (prog : String) (verbose : Bool)
    (hpre : ∀ a ∈ pre, beginsWith "--apprun" a = true ∧ a ≠ "--apprun-help" ∧
      a ≠ "--apprun-version")
    (hbad : beginsWith "--apprun" bad = true) (hun : bad ∉ recognised) :
    parseArgs (pre ++ bad :: post) i prog verbose = Scan.stop 1 := by
  induction pre generalizing i prog verbose with
  | nil =>
    simp only [recognised, List.mem_cons, List.mem_singleton, not_or, List.not_mem_nil,
      or_false] at hun
    obtain ⟨u1, u2, u3, u4, u5, u6, u7, u8⟩ := hun
    rw [List.nil_append, parseArgs_cons]
    simp [hbad, u1, u2, u3, u4, u5, u6, u7, u8]
  | cons a pre ih =>
    have ha := hpre a (List.mem_cons_self _ _)
    have hrest : ∀ b ∈ pre, beginsWith "--apprun" b = true ∧ b ≠ "--apprun-help" ∧
        b ≠ "--apprun-version" := fun b hb => hpre b (List.mem_cons_of_mem _ hb)
    rw [List.cons_append, parseArgs_cons]
    simp only [ha.1, ha.2.1, ha.2.2, if_false, Bool.true_eq_false]
    simp only [ih _ _ _ hrest, ite_self]

theorem parseArgs_help (pre : List String) (h : String) (post : List String)
    (i : Nat) (prog : String) (verbose : Bool)
    (hpre : ∀ a ∈ pre, a ∈ continuing)
    (hh : h = "--apprun-help" ∨ h = "--apprun-version") :
    parseArgs (pre ++ h :: post) i prog verbose = Scan.stop 0 := by
  induction pre generalizing i prog verbose with
  | nil =>
    rw [List.nil_append, parseArgs_cons]
    rcases hh with hh | hh <;> subst hh
    · rw [if_neg (by decide), if_pos rfl]
    · rw [if_neg (by decide), if_neg (by decide), if_pos rfl]
  | cons a pre ih =>
    have ha := hpre a (List.mem_cons_self _ _)
    have hrest : ∀ b ∈ pre, b ∈ continuing := fun b hb => hpre b (List.mem_cons_of_mem _ hb)
    rw [List.cons_append, parseArgs_cons]
    simp only [continuing, List.mem_cons, List.mem_singleton, List.not_mem_nil,
      or_false] at ha
    have hstop : ∀ (j : Nat) (p : String) (v : Bool),
        parseArgs (pre ++ h :: post) j p v = Scan.stop 0 := fun j p v => ih j p v hrest
    rcases ha with ha | ha | ha | ha | ha | ha <;> subst ha <;>
      simp only [hstop, ite_self] <;> rw [if_neg (by decide)] <;> simp

/-! ## Argument arrays -/

theorem set_at_length (pre post : ArgArr) (x v : Option String) :
    (pre ++ x :: post).set pre.length v = pre ++ v :: post := by
  induction pre with
  | nil => rfl
  | cons p ps ih => simp [List.set, ih]

theorem write_at_length (pre post : ArgArr) (x v : Option String) :
    ArgArr.write (pre ++ x :: post) pre.length v = some (pre ++ v :: post) := by
  unfold ArgArr.write
  rw [if_pos (by simp), set_at_length]

theorem copyArgs_fill (l : List String) (pre : ArgArr) (n : Nat) (h : l.length ≤ n) :
    copyArgs l pre.length (pre ++ List.replicate n none) =
      some (pre ++ l.map some ++ List.replicate (n - l.length) none, pre.length + l.length) := by
  induction l generalizing pre n with
  | nil => simp [copyArgs]
  | cons a l ih =>
    obtain ⟨m, rfl⟩ : ∃ m, n = m + 1 := ⟨n - 1, by simp at h; omega⟩
    have hm : l.length ≤ m := by simpa using h
    rw [copyArgs, List.replicate_succ, write_at_length]
    have hpre : pre ++ some a :: List.replicate m none =
        (pre ++ [some a]) ++ List.replicate m none := by simp
    have hlen : pre.length + 1 = (pre ++ [some a]).length := by simp
    simp only []
    rw [hpre, hlen, ih (pre ++ [some a]) m hm]
    simp
    omega

theorem drop_length_takeWhile {α : Type} (p : α → Bool) (l : List α) :
    l.drop (l.takeWhile p).length = l.dropWhile p := by
  induction l with
  | nil => rfl
  | cons a l ih =>
    by_cases h : p a = true
    · rw [List.takeWhile_cons_of_pos h, List.dropWhile_cons_of_pos h]
      simpa using ih
    · rw [List.takeWhile_cons_of_neg h, List.dropWhile_cons_of_neg h]
      rfl

theorem length_takeWhile_add_dropWhile {α : Type} (p : α → Bool) (l : List α) :
    (l.takeWhile p).length + (l.dropWhile p).length = l.length := by
  rw [← List.length_append, List.takeWhile_append_dropWhile]

theorem argvOf_map_some (l : List String) (post : ArgArr) :
    argvOf (l.map some ++ none :: post) = l := by
  induction l with
  | nil => rfl
  | cons a l ih => simp [argvOf, ih]

/-! ## The selector -/

theorem AppRun_scan_done (argv0 : String) (rest : List String)
    (h : ∀ status, AppRun_scan (argv0 :: rest) ≠ Scan.stop status) :
    AppRun_scan (argv0 :: rest) =
      Scan.done (flagPhaseEnd (argv0 :: rest)) (chosenTool (flagPhase (argv0 :: rest)))
        (decide ("--apprun-verbose" ∈ flagPhase (argv0 :: rest))) := by
  unfold AppRun_scan at h ⊢
  simp only [List.drop_succ_cons, List.drop_zero] at h ⊢
  rw [parseArgs_done _ _ _ _ h]
  have h1 : FAKEBIN ++ "/meson" = "fakebin/meson" := by decide
  simp [flagPhaseEnd, flagPhase, chosenTool, toolAfter, h1]

theorem AppRun_plan_done (appdir argv0 : String) (rest : List String)
    (h : ∀ status, AppRun_scan (argv0 :: rest) ≠ Scan.stop status) :
    AppRun_plan appdir (argv0 :: rest) =
      Planned.plan
        { prog := chosenTool (flagPhase (argv0 :: rest))
          verbose := decide ("--apprun-verbose" ∈ flagPhase (argv0 :: rest))
          args := some (absolute appdir (chosenTool (flagPhase (argv0 :: rest)))) ::
            (((argv0 :: rest).drop (flagPhaseEnd (argv0 :: rest))).map some ++
              none :: List.replicate (flagPhaseEnd (argv0 :: rest) - 1) none) } := by
  unfold AppRun_plan
  rw [AppRun_scan_done argv0 rest h]
  simp only []
  have hdrop : (argv0 :: rest).drop (flagPhaseEnd (argv0 :: rest)) =
      rest.dropWhile (beginsWith "--apprun") := by
    unfold flagPhaseEnd flagPhase
    simp only [List.drop_succ_cons, List.drop_zero]
    rw [Nat.add_comm, List.drop_succ_cons, drop_length_takeWhile]
  have hk : flagPhaseEnd (argv0 :: rest) - 1 =
      (rest.takeWhile (beginsWith "--apprun")).length := by
    simp [flagPhaseEnd, flagPhase]
  have hlen := length_takeWhile_add_dropWhile (beginsWith "--apprun") rest
  rw [hdrop, hk]
  have hz : ArgArr.zeroed ((argv0 :: rest).length + 1) =
      [none] ++ List.replicate (rest.length + 1) none := by
    simp [ArgArr.zeroed, List.replicate_succ]
  have hfill := copyArgs_fill (rest.dropWhile (beginsWith "--apprun")) [none]
    (rest.length + 1) (by omega)
  rw [hz]
  simp only [List.length_singleton] at hfill
  rw [hfill]
  simp only []
  have hrep : rest.length + 1 - (rest.dropWhile (beginsWith "--apprun")).length =
      (rest.takeWhile (beginsWith "--apprun")).length + 1 := by omega
  rw [hrep]
  have hw0 := write_at_length []
    (List.map some (rest.dropWhile (beginsWith "--apprun")) ++
      List.replicate ((rest.takeWhile (beginsWith "--apprun")).length + 1) none) none
    (some (absolute appdir (chosenTool (flagPhase (argv0 :: rest)))))
  simp only [List.nil_append, List.length_nil] at hw0
  simp only [List.singleton_append, List.cons_append, List.nil_append]
  rw [hw0]
  simp only []
  have hw1 := write_at_length
    (some (absolute appdir (chosenTool (flagPhase (argv0 :: rest)))) ::
      List.map some (rest.dropWhile (beginsWith "--apprun")))
    (List.replicate (rest.takeWhile (beginsWith "--apprun")).length none) none none
  simp only [List.length_cons, List.length_map, List.cons_append] at hw1
  rw [List.replicate_succ]
  have hc : 1 + (rest.dropWhile (beginsWith "--apprun")).length =
      (rest.dropWhile (beginsWith "--apprun")).length + 1 := by omega
  rw [hc, hw1]

theorem AppRun_main_of_root (realpath : String → Option String) (env : Env)
    (argv : List String) (root : String)
    (hroot : dirname (realpath "/proc/self/exe") = some root) :
    AppRun_main realpath env argv =
      match AppRun_plan root argv with
      | Planned.stop status => Outcome.terminated status env
      | Planned.undefined => Outcome.undefined
      | Planned.plan p =>
        match AppRun_env
            { appdir := root
              appimage_path := argv.head?.bind realpath
              path := absolute root FAKEBIN
              ld_linux := absolute root "usr/lib/ld-linux.so"
              ld_library_path := absolute root "usr/lib"
              pythonhome := absolute root "usr" } p.verbose env with
        | none => Outcome.undefined
        | some env1 =>
          match p.args.head? with
          | some (some path) => Outcome.handoff path p.args env1 p.verbose
          | _ => Outcome.undefined := by
  unfold AppRun_main
  rw [hroot]
  rfl

theorem AppRun_main_stop (realpath : String → Option String) (env : Env)
    (argv : List String) (status : Nat) (h : AppRun_scan argv = Scan.stop status) :
    AppRun_main realpath env argv = Outcome.terminated status env := by
  obtain ⟨root, hroot⟩ := dirname_some (realpath "/proc/self/exe")
  rw [AppRun_main_of_root realpath env argv root hroot]
  unfold AppRun_plan
  rw [h]

theorem AppRun_env_some (info : AppRunInfo) (verbose : Bool) (env : Env) (image : String)
    (h : info.appimage_path = some image) : ∃ env1, AppRun_env info verbose env = some env1 := by
  unfold AppRun_env
  rw [h]
  exact ⟨_, rfl⟩

theorem AppRun_main_done (realpath : String → Option String) (env : Env)
    (argv0 : String) (rest : List String) (root image : String)
    (hroot : dirname (realpath "/proc/self/exe") = some root)
    (himage : realpath argv0 = some image)
    (h : ∀ status, AppRun_scan (argv0 :: rest) ≠ Scan.stop status) :
    ∃ env1, AppRun_main realpath env (argv0 :: rest) =
      Outcome.handoff (absolute root (chosenTool (flagPhase (argv0 :: rest))))
        (some (absolute root (chosenTool (flagPhase (argv0 :: rest)))) ::
          (((argv0 :: rest).drop (flagPhaseEnd (argv0 :: rest))).map some ++
            none :: List.replicate (flagPhaseEnd (argv0 :: rest) - 1) none))
        env1 (decide ("--apprun-verbose" ∈ flagPhase (argv0 :: rest))) := by
  rw [AppRun_main_of_root realpath env _ root hroot, AppRun_plan_done root argv0 rest h]
  simp only []
  obtain ⟨env1, he⟩ := AppRun_env_some
    { appdir := root
      appimage_path := (argv0 :: rest).head?.bind realpath
      path := absolute root FAKEBIN
      ld_linux := absolute root "usr/lib/ld-linux.so"
      ld_library_path := absolute root "usr/lib"
      pythonhome := absolute root "usr" }
    (decide ("--apprun-verbose" ∈ flagPhase (argv0 :: rest))) env image
    (by simpa using himage)
  rw [he]
  exact ⟨env1, rfl⟩

theorem flagPhaseEnd_least (argv0 : String) (rest : List String) :
    1 ≤ flagPhaseEnd (argv0 :: rest) ∧
    flagPhaseEnd (argv0 :: rest) ≤ (argv0 :: rest).length ∧
    (∀ j a, 1 ≤ j → j < flagPhaseEnd (argv0 :: rest) → (argv0 :: rest).get? j = some a →
      beginsWith "--apprun" a = true) ∧
    (∀ a, (argv0 :: rest).get? (flagPhaseEnd (argv0 :: rest)) = some a →
      beginsWith "--apprun" a = false) := by
  have hlen := length_takeWhile_add_dropWhile (beginsWith "--apprun") rest
  have hsplit := List.takeWhile_append_dropWhile (beginsWith "--apprun") rest
  refine ⟨by simp [flagPhaseEnd], ?_, ?_, ?_⟩
  · simp only [flagPhaseEnd, flagPhase, List.drop_succ_cons, List.drop_zero, List.length_cons]
    omega
  · intro j a h1 hj hget
    obtain ⟨m, rfl⟩ : ∃ m, j = m + 1 := ⟨j - 1, by omega⟩
    simp only [flagPhaseEnd, flagPhase, List.drop_succ_cons, List.drop_zero] at hj
    have hm : m < (rest.takeWhile (beginsWith "--apprun")).length := by omega
    simp only [List.get?_cons_succ] at hget
    rw [← hsplit, List.get?_eq_getElem?, List.getElem?_append_left hm] at hget
    have hmem : a ∈ rest.takeWhile (beginsWith "--apprun") :=
      List.getElem?_mem hget
    exact (List.mem_takeWhile_imp hmem)
  · intro a hget
    simp only [flagPhaseEnd, flagPhase, List.drop_succ_cons, List.drop_zero] at hget
    rw [Nat.add_comm, List.get?_cons_succ, List.get?_eq_getElem?,
      ← List.head?_drop, drop_length_takeWhile] at hget
    cases hd : rest.dropWhile (beginsWith "--apprun") with
    | nil => rw [hd] at hget; simp at hget
    | cons x xs =>
      rw [hd] at hget
      simp only [List.head?_cons, Option.some.injEq] at hget
      subst hget
      have := List.head_dropWhile_not (beginsWith "--apprun") rest (by rw [hd]; simp)
      simpa [hd] using this

theorem AppRun_main_no_image (realpath : String → Option String) (env : Env)
    (argv0 : String) (rest : List String)
    (himage : realpath argv0 = none)
    (h : ∀ status, AppRun_scan (argv0 :: rest) ≠ Scan.stop status) :
    AppRun_main realpath env (argv0 :: rest) = Outcome.undefined := by
  obtain ⟨root, hroot⟩ := dirname_some (realpath "/proc/self/exe")
  rw [AppRun_main_of_root realpath env _ root hroot, AppRun_plan_done root argv0 rest h]
  simp [AppRun_env, himage]

theorem takeWhile_eq_take_length {α : Type} (p : α → Bool) (l : List α) :
    l.takeWhile p = l.take (l.takeWhile p).length := by
  induction l with
  | nil => rfl
  | cons a l ih =>
    by_cases h : p a = true
    · rw [List.takeWhile_cons_of_pos h, List.length_cons, List.take_succ_cons, ← ih]
    · rw [List.takeWhile_cons_of_neg h]
      rfl

theorem flagPhase_eq_take (argv : List String) :
    flagPhase argv = (argv.drop 1).take (flagPhaseEnd argv - 1) := by
  unfold flagPhaseEnd flagPhase
  have : 1 + (List.takeWhile (beginsWith "--apprun") (argv.drop 1)).length - 1 =
      (List.takeWhile (beginsWith "--apprun") (argv.drop 1)).length := by omega
  rw [this]
  exact takeWhile_eq_take_length _ _

theorem parseArgs_tail (flags : List String) (x : String) (t1 t2 : List String)
    (i : Nat) (prog : String) (verbose : Bool) (hx : beginsWith "--apprun" x = false) :
    parseArgs (flags ++ x :: t1) i prog verbose =
      parseArgs (flags ++ x :: t2) i prog verbose := by
  induction flags generalizing i prog verbose with
  | nil => simp [parseArgs_cons, hx]
  | cons a flags ih =>
    simp only [List.cons_append, parseArgs_cons, ih]

theorem takeWhile_append_stop (flags : List String) (x : String) (tail : List String)
    (hflags : ∀ a ∈ flags, beginsWith "--apprun" a = true)
    (hx : beginsWith "--apprun" x = false) :
    (flags ++ x :: tail).takeWhile (beginsWith "--apprun") = flags := by
  induction flags with
  | nil => simp [List.takeWhile, hx]
  | cons a flags ih =>
    have ha := hflags a (List.mem_cons_self _ _)
    simp only [List.cons_append]
    rw [List.takeWhile_cons_of_pos ha, ih (fun b hb => hflags b (List.mem_cons_of_mem _ hb))]

/-- C4: on every argument vector `argv0 :: rest` whose flag scan does not end the process,
with `k = flagPhaseEnd argv` the least index from 1 on whose argument does not begin with
`--apprun` (`argc` when there is none): the scan leaves the loop at `i = k`; the array
built for `execv` is `absolute(bundleRoot, chosenTool)`, then `argv[k], ..., argv[argc-1]`
unchanged and in order, then NULL (followed by the `k - 1` unused slots, which are NULL), so
the vector `execv` reads is the target followed by exactly `argv[k:]`; the verbosity flag
is true iff `--apprun-verbose` occurs in `argv[1:k]`; and when `realpath(argv[0])` resolves,
`main` calls `execv` on that target with that array (when it does not, `setenv` is given
NULL and no `execv` happens). -/
theorem AppRun_forwarding (realpath : String → Option String) (env : Env) (argv0 : String)
    (rest : List String)
    (hscan : ∀ status, AppRun_scan (argv0 :: rest) ≠ Scan.stop status) :
    ∃ bundleRoot, dirname (realpath "/proc/self/exe") = some bundleRoot ∧
      (1 ≤ flagPhaseEnd (argv0 :: rest) ∧
        flagPhaseEnd (argv0 :: rest) ≤ (argv0 :: rest).length ∧
        (∀ j a, 1 ≤ j → j < flagPhaseEnd (argv0 :: rest) →
          (argv0 :: rest).get? j = some a → beginsWith "--apprun" a = true) ∧
        (∀ a, (argv0 :: rest).get? (flagPhaseEnd (argv0 :: rest)) = some a →
          beginsWith "--apprun" a = false)) ∧
      AppRun_scan (argv0 :: rest) =
        Scan.done (flagPhaseEnd (argv0 :: rest)) (chosenTool (flagPhase (argv0 :: rest)))
          (decide ("--apprun-verbose" ∈
            ((argv0 :: rest).drop 1).take (flagPhaseEnd (argv0 :: rest) - 1))) ∧
      AppRun_plan bundleRoot (argv0 :: rest) =
        Planned.plan
          { prog := chosenTool (flagPhase (argv0 :: rest))
            verbose := decide ("--apprun-verbose" ∈
              ((argv0 :: rest).drop 1).take (flagPhaseEnd (argv0 :: rest) - 1))
            args := some (absolute bundleRoot (chosenTool (flagPhase (argv0 :: rest)))) ::
              (((argv0 :: rest).drop (flagPhaseEnd (argv0 :: rest))).map some ++
                none :: List.replicate (flagPhaseEnd (argv0 :: rest) - 1) none) } ∧
      argvOf (some (absolute bundleRoot (chosenTool (flagPhase (argv0 :: rest)))) ::
          (((argv0 :: rest).drop (flagPhaseEnd (argv0 :: rest))).map some ++
            none :: List.replicate (flagPhaseEnd (argv0 :: rest) - 1) none)) =
        absolute bundleRoot (chosenTool (flagPhase (argv0 :: rest))) ::
          (argv0 :: rest).drop (flagPhaseEnd (argv0 :: rest)) ∧
      (∀ image, realpath argv0 = some image →
        ∃ env1, AppRun_main realpath env (argv0 :: rest) =
          Outcome.handoff (absolute bundleRoot (chosenTool (flagPhase (argv0 :: rest))))
            (some (absolute bundleRoot (chosenTool (flagPhase (argv0 :: rest)))) ::
              (((argv0 :: rest).drop (flagPhaseEnd (argv0 :: rest))).map some ++
                none :: List.replicate (flagPhaseEnd (argv0 :: rest) - 1) none))
            env1
            (decide ("--apprun-verbose" ∈
              ((argv0 :: rest).drop 1).take (flagPhaseEnd (argv0 :: rest) - 1)))) ∧
      (realpath argv0 = none →
        AppRun_main realpath env (argv0 :: rest) = Outcome.undefined) := by
  obtain ⟨root, hroot⟩ := dirname_some (realpath "/proc/self/exe")
  refine ⟨root, hroot, flagPhaseEnd_least argv0 rest, ?_, ?_, ?_, ?_, ?_⟩
  · rw [← flagPhase_eq_take]
    exact AppRun_scan_done argv0 rest hscan
  · rw [← flagPhase_eq_take]
    exact AppRun_plan_done root argv0 rest hscan
  · simp only [argvOf]
    rw [argvOf_map_some]
  · intro image himage
    rw [← flagPhase_eq_take]
    exact AppRun_main_done realpath env argv0 rest root image hroot himage hscan
  · intro himage
    exact AppRun_main_no_image realpath env argv0 rest himage hscan

/-- The flags `--apprun-ninja --apprun-verbose build` give the target
`<bundleRoot>/fakebin/ninja`, verbosity true and the forwarded tail `build`. -/
theorem AppRun_forwarding_witness :
    ∃ env1, AppRun_main sampleRealpath hostEnv
        ["./meson.AppImage", "--apprun-ninja", "--apprun-verbose", "build"] =
      Outcome.handoff "/tmp/m/fakebin/ninja"
        [some "/tmp/m/fakebin/ninja", some "build", none, none, none] env1 true := by
  obtain ⟨root, hroot, _, _, _, _, hmain, _⟩ :=
    AppRun_forwarding sampleRealpath hostEnv "./meson.AppImage"
      ["--apprun-ninja", "--apprun-verbose", "build"]
      (fun status h => by
        rw [show AppRun_scan
            ["./meson.AppImage", "--apprun-ninja", "--apprun-verbose", "build"] =
          Scan.done 3 "fakebin/ninja" true from by decide] at h
        exact Scan.noConfusion h)
  have hr : dirname (sampleRealpath "/proc/self/exe") = some "/tmp/m" := by decide
  rw [hr] at hroot
  have hroot' : root = "/tmp/m" := (Option.some.inj hroot).symm
  subst hroot'
  obtain ⟨env1, h⟩ := hmain "/home/u/meson.AppImage" (by decide)
  refine ⟨env1, ?_⟩
  rw [h]
  rfl

theorem chosenTool_none (flags : List String) (h : ∀ a ∈ flags, selectorTool a = none) :
    chosenTool flags = "fakebin/meson" := by
  unfold chosenTool
  have : flags.filterMap selectorTool = [] := by
    rw [List.filterMap_eq_nil_iff]
    exact h
  rw [this]
  rfl

theorem chosenTool_last (before after : List String) (f tool : String)
    (hf : selectorTool f = some tool) (h : ∀ a ∈ after, selectorTool a = none) :
    chosenTool (before ++ f :: after) = tool := by
  unfold chosenTool
  have hafter : after.filterMap selectorTool = [] := by
    rw [List.filterMap_eq_nil_iff]
    exact h
  rw [List.filterMap_append, List.filterMap_cons, hf]
  simp only [hafter]
  rw [List.getLast?_append]
  rfl

/-- C5: on every argument vector whose flag scan does not end the process, the scan ends
with the target `chosenTool (flagPhase argv)`: the bundled-tool path `fakebin/<tool>` of the
last program-selector flag of the flag phase, and `fakebin/meson` when the flag phase has no
program-selector flag; `main` hands off to `absolute(bundleRoot, target)`; and whatever
follows the first argument without the self-prefix has no influence on the target. -/
theorem AppRun_target (realpath : String → Option String) (env : Env) (argv0 : String)
    (rest : List String)
    (hscan : ∀ status, AppRun_scan (argv0 :: rest) ≠ Scan.stop status) :
    (∃ i verbose, AppRun_scan (argv0 :: rest) =
      Scan.done i (chosenTool (flagPhase (argv0 :: rest))) verbose) ∧
    ((∀ a ∈ flagPhase (argv0 :: rest), selectorTool a = none) →
      chosenTool (flagPhase (argv0 :: rest)) = "fakebin/meson") ∧
    (∀ before after f tool, flagPhase (argv0 :: rest) = before ++ f :: after →
      selectorTool f = some tool → (∀ a ∈ after, selectorTool a = none) →
      chosenTool (flagPhase (argv0 :: rest)) = tool) ∧
    (∃ bundleRoot, dirname (realpath "/proc/self/exe") = some bundleRoot ∧
      ∀ image, realpath argv0 = some image →
        ∃ args env1 verbose, AppRun_main realpath env (argv0 :: rest) =
          Outcome.handoff (absolute bundleRoot (chosenTool (flagPhase (argv0 :: rest))))
            args env1 verbose ∧
          args.head? = some (some
            (absolute bundleRoot (chosenTool (flagPhase (argv0 :: rest)))))) ∧
    (∀ flags x tail tail', rest = flags ++ x :: tail →
      (∀ a ∈ flags, beginsWith "--apprun" a = true) → beginsWith "--apprun" x = false →
      flagPhase (argv0 :: rest) = flags ∧
      ∃ i verbose, AppRun_scan (argv0 :: (flags ++ x :: tail')) =
        Scan.done i (chosenTool flags) verbose) := by
  have hdone := AppRun_scan_done argv0 rest hscan
  refine ⟨⟨_, _, hdone⟩, chosenTool_none _, ?_, ?_, ?_⟩
  · intro before after f tool hsplit hf hafter
    rw [hsplit]
    exact chosenTool_last before after f tool hf hafter
  · obtain ⟨root, hroot⟩ := dirname_some (realpath "/proc/self/exe")
    refine ⟨root, hroot, ?_⟩
    intro image himage
    obtain ⟨env1, h⟩ := AppRun_main_done realpath env argv0 rest root image hroot himage hscan
    exact ⟨_, env1, _, h, rfl⟩
  · intro flags x tail tail' hrest hflags hx
    have hphase : flagPhase (argv0 :: rest) = flags := by
      unfold flagPhase
      simp only [List.drop_succ_cons, List.drop_zero]
      rw [hrest]
      exact takeWhile_append_stop flags x tail hflags hx
    refine ⟨hphase, ?_⟩
    have hsame : AppRun_scan (argv0 :: (flags ++ x :: tail')) = AppRun_scan (argv0 :: rest) := by
      unfold AppRun_scan
      simp only [List.drop_succ_cons, List.drop_zero]
      rw [hrest]
      exact parseArgs_tail flags x tail' tail _ _ _ hx
    rw [hsame, hdone, hphase]
    exact ⟨_, _, rfl⟩

/-- Of `--apprun-cmake --apprun-ninja build --apprun-meson` the last selector of the flag
phase, `--apprun-ninja`, decides: the run hands off to `/tmp/m/fakebin/ninja`. -/
theorem AppRun_target_witness :
    ∃ args env1 verbose, AppRun_main sampleRealpath hostEnv
        ["./meson.AppImage", "--apprun-cmake", "--apprun-ninja", "build", "--apprun-meson"] =
      Outcome.handoff "/tmp/m/fakebin/ninja" args env1 verbose := by
  obtain ⟨_, _, _, ⟨root, hroot, hmain⟩, _⟩ :=
    AppRun_target sampleRealpath hostEnv "./meson.AppImage"
      ["--apprun-cmake", "--apprun-ninja", "build", "--apprun-meson"]
      (fun status h => by
        rw [show AppRun_scan
            ["./meson.AppImage", "--apprun-cmake", "--apprun-ninja", "build",
              "--apprun-meson"] =
          Scan.done 3 "fakebin/ninja" false from by decide] at h
        exact Scan.noConfusion h)
  have hr : dirname (sampleRealpath "/proc/self/exe") = some "/tmp/m" := by decide
  rw [hr] at hroot
  have hroot' : root = "/tmp/m" := (Option.some.inj hroot).symm
  subst hroot'
  obtain ⟨args, env1, verbose, h, _⟩ := hmain "/home/u/meson.AppImage" (by decide)
  refine ⟨args, env1, verbose, ?_⟩
  rw [h]
  rfl

/-- C6: when the flag scan reaches, with no `--apprun-help` or `--apprun-version` before
it, an argument `bad` that begins with `--apprun` but is none of the recognised flags, `main`
ends with `exit(1)` in the unchanged environment and makes no `execv` call. -/
theorem AppRun_usage_error (realpath : String → Option String) (env : Env) (argv0 : String)
    (pre : List String) (bad : String) (post : List String)
    (hpre : ∀ a ∈ pre, beginsWith "--apprun" a = true ∧ a ≠ "--apprun-help" ∧
      a ≠ "--apprun-version")
    (hbad : beginsWith "--apprun" bad = true) (hun : bad ∉ recognised) :
    AppRun_main realpath env (argv0 :: (pre ++ bad :: post)) = Outcome.terminated 1 env ∧
    (AppRun_main realpath env (argv0 :: (pre ++ bad :: post))).execv? = none := by
  have h : AppRun_main realpath env (argv0 :: (pre ++ bad :: post)) =
      Outcome.terminated 1 env := by
    apply AppRun_main_stop
    unfold AppRun_scan
    simp only [List.drop_succ_cons, List.drop_zero]
    exact parseArgs_unknown pre bad post _ _ _ hpre hbad hun
  exact ⟨h, by rw [h]; rfl⟩

/-- The selector on `--apprun-bogus` ends with status 1 in the unchanged environment. -/
theorem AppRun_usage_error_witness :
    AppRun_main sampleRealpath hostEnv ["./meson.AppImage", "--apprun-bogus"] =
      Outcome.terminated 1 hostEnv :=
  (AppRun_usage_error sampleRealpath hostEnv "./meson.AppImage" [] "--apprun-bogus" []
    (fun a ha => absurd ha (List.not_mem_nil a)) (by decide) (by decide)).1

/-- C7: when the arguments before the first help flag, version flag or unrecognised
self-prefixed argument are all verbose or program-selector flags and that argument is
`--apprun-help` or `--apprun-version`, `main` ends with `exit(0)` in the unchanged
environment and makes no `execv` call, whatever follows. -/
theorem AppRun_help_version (realpath : String → Option String) (env : Env) (argv0 : String)
    (pre : List String) (h : String) (post : List String)
    (hpre : ∀ a ∈ pre, a ∈ continuing)
    (hh : h = "--apprun-help" ∨ h = "--apprun-version") :
    AppRun_main realpath env (argv0 :: (pre ++ h :: post)) = Outcome.terminated 0 env ∧
    (AppRun_main realpath env (argv0 :: (pre ++ h :: post))).execv? = none := by
  have hm : AppRun_main realpath env (argv0 :: (pre ++ h :: post)) =
      Outcome.terminated 0 env := by
    apply AppRun_main_stop
    unfold AppRun_scan
    simp only [List.drop_succ_cons, List.drop_zero]
    exact parseArgs_help pre h post _ _ _ hpre hh
  exact ⟨hm, by rw [hm]; rfl⟩

/-- After `--apprun-ninja`, `--apprun-version` ends the run with status 0 although an
unrecognised `--apprun-bogus` follows. -/
theorem AppRun_help_version_witness :
    AppRun_main sampleRealpath hostEnv
        ["./meson.AppImage", "--apprun-ninja", "--apprun-version", "--apprun-bogus", "x"] =
      Outcome.terminated 0 hostEnv :=
  (AppRun_help_version sampleRealpath hostEnv "./meson.AppImage" ["--apprun-ninja"]
    "--apprun-version" ["--apprun-bogus", "x"] (by decide) (Or.inr rfl)).1

/-! ## The wrapper -/

theorem wrapper_main_of_root (script static : Bool) (exe : String) (env : Env)
    (argv : List String) (root : String)
    (hroot : getenv env "MESON_AppRun_APPDIR" = some root) :
    wrapper_main script static exe env argv =
      match wrapper_args script static exe
          { appdir := root
            appimage_path := none
            path := absolute root FAKEBIN
            ld_linux := absolute root "usr/lib/ld-linux.so"
            ld_library_path := absolute root "usr/lib"
            pythonhome := absolute root "usr" } argv with
      | none => Outcome.undefined
      | some args =>
        match args.head? with
        | some (some path) =>
          Outcome.handoff path args
            (wrapper_env static
              { appdir := root
                appimage_path := none
                path := absolute root FAKEBIN
                ld_linux := absolute root "usr/lib/ld-linux.so"
                ld_library_path := absolute root "usr/lib"
                pythonhome := absolute root "usr" } env)
            (wrapper_verbose (getenv env "MESON_AppRun_VERBOSE"))
        | _ => Outcome.undefined := by
  have h1 : VAR_PREFIX ++ "APPDIR" = "MESON_AppRun_APPDIR" := by decide
  have h2 : VAR_PREFIX ++ "VERBOSE" = "MESON_AppRun_VERBOSE" := by decide
  unfold wrapper_main
  rw [h1, h2, hroot]
  rfl

theorem wrapper_copy (c : Nat) (hc : c ≤ 3) (argv0 : String) (rest : List String) :
    copyArgs rest c (ArgArr.zeroed ((argv0 :: rest).length + 3)) =
      some (List.replicate c none ++ rest.map some ++ List.replicate (4 - c) none,
        c + rest.length) := by
  have hz : ArgArr.zeroed ((argv0 :: rest).length + 3) =
      List.replicate c none ++ List.replicate (rest.length + 4 - c) none := by
    unfold ArgArr.zeroed
    rw [← List.replicate_add]
    congr 1
    simp only [List.length_cons]
    omega
  have hfill := copyArgs_fill rest (List.replicate c none) (rest.length + 4 - c) (by omega)
  rw [List.length_replicate] at hfill
  have hsub : rest.length + 4 - c - rest.length = 4 - c := by omega
  rw [hz, hfill, hsub]

theorem wrapper_terminator (c : Nat) (hc : c ≤ 3) (rest : List String) :
    ArgArr.write (List.replicate c none ++ rest.map some ++ List.replicate (4 - c) none)
      (c + rest.length) none =
      some (List.replicate c none ++ rest.map some ++ List.replicate (4 - c) none) := by
  obtain ⟨m, hm⟩ : ∃ m, 4 - c = m + 1 := ⟨3 - c, by omega⟩
  rw [hm, List.replicate_succ]
  have h := write_at_length (List.replicate c none ++ rest.map some)
    (List.replicate m none) none none
  rw [List.length_append, List.length_replicate, List.length_map] at h
  exact h

theorem wrapper_args_dynamic (exe : String) (info : AppRunInfo) (argv0 : String)
    (rest : List String) :
    wrapper_args false false exe info (argv0 :: rest) =
      some (some info.ld_linux :: some (absolute info.appdir ("usr/bin/" ++ exe)) ::
        (rest.map some ++ [none, none])) := by
  have hc : 2 + flag false - flag false = 2 := by decide
  unfold wrapper_args
  simp only [List.drop_succ_cons, List.drop_zero, hc]
  rw [wrapper_copy 2 (by omega)]
  simp only []
  rw [wrapper_terminator 2 (by omega)]
  simp [ArgArr.write, List.replicate]

theorem wrapper_args_static (exe : String) (info : AppRunInfo) (argv0 : String)
    (rest : List String) :
    wrapper_args false true exe info (argv0 :: rest) =
      some (some (absolute info.appdir ("usr/bin/" ++ exe)) ::
        (rest.map some ++ [none, none, none])) := by
  have hc : 2 + flag false - flag true = 1 := by decide
  unfold wrapper_args
  simp only [List.drop_succ_cons, List.drop_zero, hc]
  rw [wrapper_copy 1 (by omega)]
  simp only []
  rw [wrapper_terminator 1 (by omega)]
  simp [ArgArr.write, List.replicate]

theorem wrapper_args_script (exe : String) (info : AppRunInfo) (argv0 : String)
    (rest : List String) :
    wrapper_args true false exe info (argv0 :: rest) =
      some (some info.ld_linux :: some (absolute info.appdir "usr/bin/python3") ::
        some (absolute info.appdir ("usr/bin/" ++ exe)) :: (rest.map some ++ [none])) := by
  have hc : 2 + flag true - flag false = 3 := by decide
  unfold wrapper_args
  simp only [List.drop_succ_cons, List.drop_zero, hc]
  rw [wrapper_copy 3 (by omega)]
  simp only []
  rw [wrapper_terminator 3 (by omega)]
  simp [ArgArr.write, List.replicate]

theorem wrapper_args_script_static (exe : String) (info : AppRunInfo) (argv0 a : String)
    (rest : List String) :
    wrapper_args true true exe info (argv0 :: a :: rest) =
      some (some info.ld_linux :: some (absolute info.appdir "usr/bin/python3") ::
        some (absolute info.appdir ("usr/bin/" ++ exe)) :: (rest.map some ++ [none, none])) := by
  have hc : 2 + flag true - flag true = 2 := by decide
  unfold wrapper_args
  simp only [List.drop_succ_cons, List.drop_zero, hc]
  rw [wrapper_copy 2 (by omega)]
  simp only []
  rw [wrapper_terminator 2 (by omega)]
  simp [ArgArr.write, List.replicate]

theorem wrapper_script_dynamic_argv (exe : String) (env : Env) (root argv0 : String)
    (rest : List String) (hroot : getenv env "MESON_AppRun_APPDIR" = some root) :
    ∃ env1 verbose, wrapper_main true false exe env (argv0 :: rest) =
      Outcome.handoff (absolute root "usr/lib/ld-linux.so")
        ([some (absolute root "usr/lib/ld-linux.so"), some (absolute root "usr/bin/python3"),
          some (absolute root ("usr/bin/" ++ exe))] ++ rest.map some ++ [none])
        env1 verbose := by
  rw [wrapper_main_of_root true false exe env _ root hroot, wrapper_args_script]
  exact ⟨_, _, rfl⟩

theorem wrapper_script_static_argv (exe : String) (env : Env) (root argv0 a : String)
    (rest : List String) (hroot : getenv env "MESON_AppRun_APPDIR" = some root) :
    ∃ env1 verbose, wrapper_main true true exe env (argv0 :: a :: rest) =
      Outcome.handoff (absolute root "usr/lib/ld-linux.so")
        ([some (absolute root "usr/lib/ld-linux.so"), some (absolute root "usr/bin/python3"),
          some (absolute root ("usr/bin/" ++ exe))] ++ rest.map some ++ [none, none])
        env1 verbose := by
  rw [wrapper_main_of_root true true exe env _ root hroot, wrapper_args_script_static]
  exact ⟨_, _, rfl⟩

/-- C8: with `IS_PYTHON_SCRIPT = 1` and `STATICALLY_LINKED = 1` the wrapper for `meson`, run
with the original arguments `setup.py build` under the bundle root `/tmp/m`, calls `execv`
with the array `[loader, interpreter, script, "build", NULL, NULL]`: the store to `args[2]`
overwrites the first original argument `setup.py`, so the vector is not
`[loader, interpreter, script, "setup.py", "build", NULL]`. -/
theorem wrapper_script_static_overwrites :
    (wrapper_main true true "meson" bundleEnv ["meson", "setup.py", "build"]).execv? =
      some ("/tmp/m/usr/lib/ld-linux.so",
        [some "/tmp/m/usr/lib/ld-linux.so", some "/tmp/m/usr/bin/python3",
          some "/tmp/m/usr/bin/meson", some "build", none, none]) ∧
    (wrapper_main true true "meson" bundleEnv ["meson", "setup.py", "build"]).execv? ≠
      some (absolute "/tmp/m" "usr/lib/ld-linux.so",
        [some (absolute "/tmp/m" "usr/lib/ld-linux.so"),
          some (absolute "/tmp/m" "usr/bin/python3"),
          some (absolute "/tmp/m" ("usr/bin/" ++ "meson")),
          some "setup.py", some "build", none]) := by
  constructor <;> decide

/-- C9: with `IS_PYTHON_SCRIPT = 0` and the bundle-root marker set to `root`, for every
original argument list `rest = argv[1:]` the wrapper calls `execv` on an array that begins
`[targetPath] ++ rest ++ [NULL]` when `STATICALLY_LINKED = 1` and
`[loaderPath, targetPath] ++ rest ++ [NULL]` when it is 0 (the slots after the terminator
are unused and NULL), so the vector `execv` reads is the target, after the loader in the
dynamic mode, followed by exactly the original arguments. -/
theorem wrapper_binary_argv (exe : String) (env : Env) (root argv0 : String)
    (rest : List String) (hroot : getenv env "MESON_AppRun_APPDIR" = some root) :
    (∃ env1 verbose, wrapper_main false true exe env (argv0 :: rest) =
      Outcome.handoff (absolute root ("usr/bin/" ++ exe))
        (([some (absolute root ("usr/bin/" ++ exe))] ++ rest.map some ++ [none]) ++
          List.replicate 2 none)
        env1 verbose) ∧
    argvOf (([some (absolute root ("usr/bin/" ++ exe))] ++ rest.map some ++ [none]) ++
        List.replicate 2 none) = absolute root ("usr/bin/" ++ exe) :: rest ∧
    (∃ env1 verbose, wrapper_main false false exe env (argv0 :: rest) =
      Outcome.handoff (absolute root "usr/lib/ld-linux.so")
        (([some (absolute root "usr/lib/ld-linux.so"),
            some (absolute root ("usr/bin/" ++ exe))] ++ rest.map some ++ [none]) ++
          List.replicate 1 none)
        env1 verbose) ∧
    argvOf (([some (absolute root "usr/lib/ld-linux.so"),
          some (absolute root ("usr/bin/" ++ exe))] ++ rest.map some ++ [none]) ++
        List.replicate 1 none) =
      absolute root "usr/lib/ld-linux.so" :: absolute root ("usr/bin/" ++ exe) :: rest := by
  refine ⟨?_, ?_, ?_, ?_⟩
  · have harr : ([some (absolute root ("usr/bin/" ++ exe))] ++ rest.map some ++ [none]) ++
        List.replicate 2 none =
        some (absolute root ("usr/bin/" ++ exe)) :: (rest.map some ++ [none, none, none]) := by
      simp [List.replicate]
    rw [wrapper_main_of_root false true exe env _ root hroot, wrapper_args_static, harr]
    exact ⟨_, _, rfl⟩
  · have h := argvOf_map_some rest (List.replicate 2 none)
    simpa [argvOf, List.replicate] using h
  · have harr : ([some (absolute root "usr/lib/ld-linux.so"),
          some (absolute root ("usr/bin/" ++ exe))] ++ rest.map some ++ [none]) ++
        List.replicate 1 none =
        some (absolute root "usr/lib/ld-linux.so") ::
          some (absolute root ("usr/bin/" ++ exe)) :: (rest.map some ++ [none, none]) := by
      simp [List.replicate]
    rw [wrapper_main_of_root false false exe env _ root hroot, wrapper_args_dynamic, harr]
    exact ⟨_, _, rfl⟩
  · have h := argvOf_map_some rest (List.replicate 1 none)
    simpa [argvOf, List.replicate] using h

/-- Under the bundle root `/tmp/m` the statically linked wrapper for `ninja` with the
original arguments `-C build` executes `/tmp/m/usr/bin/ninja -C build`. -/
theorem wrapper_binary_argv_witness :
    ∃ env1 verbose, wrapper_main false true "ninja" bundleEnv ["ninja", "-C", "build"] =
      Outcome.handoff "/tmp/m/usr/bin/ninja"
        [some "/tmp/m/usr/bin/ninja", some "-C", some "build", none, none, none]
        env1 verbose := by
  obtain ⟨⟨env1, verbose, h⟩, _⟩ :=
    wrapper_binary_argv "ninja" bundleEnv "/tmp/m" "ninja" ["-C", "build"] (by decide)
  exact ⟨env1, verbose, by rw [h]; rfl⟩

theorem wrapper_env_static (info : AppRunInfo) (env : Env) :
    wrapper_env true info env =
      fun n => if n = "PYTHONDONTWRITEBYTECODE" then some "1"
        else if n = "PYTHONHOME" then some info.pythonhome else env n := by
  unfold wrapper_env
  have hlit : "PYTHONDONTWRITEBYTECODE=1" = "PYTHONDONTWRITEBYTECODE" ++ "=" ++ "1" := by
    decide
  simp only [Bool.not_true, Bool.false_eq_true, if_false]
  rw [hlit, putenv_assign _ _ _ (by decide), setenv_assign _ _ _ (by decide) (by decide)]

theorem wrapper_args_static_some (exe : String) (info : AppRunInfo) (argv : List String) :
    ∃ args path, wrapper_args false true exe info argv = some args ∧
      args.head? = some (some path) := by
  cases argv with
  | nil => exact ⟨_, _, rfl, rfl⟩
  | cons argv0 rest =>
    rw [wrapper_args_static]
    exact ⟨_, _, rfl, rfl⟩

/-- C10: the wrapper in statically-linked mode (`STATICALLY_LINKED = 1`,
`IS_PYTHON_SCRIPT = 0`) does not write a library-path variable: its environment set-up
leaves `LD_LIBRARY_PATH` and `MESON_AppRun_LD_LIBRARY_PATH` with the value, or unset state,
they had, and on every inherited environment and argument vector the run ends (at `execv`
when the bundle-root marker is set, with `exit(1)` otherwise) in an environment in which
both variables are as inherited. -/
theorem wrapper_static_keeps_library_path (exe : String) (env : Env) (argv : List String) :
    (∀ info : AppRunInfo,
      getenv (wrapper_env true info env) "LD_LIBRARY_PATH" = getenv env "LD_LIBRARY_PATH" ∧
      getenv (wrapper_env true info env) "MESON_AppRun_LD_LIBRARY_PATH" =
        getenv env "MESON_AppRun_LD_LIBRARY_PATH") ∧
    ∃ env1, (wrapper_main false true exe env argv).env? = some env1 ∧
      getenv env1 "LD_LIBRARY_PATH" = getenv env "LD_LIBRARY_PATH" ∧
      getenv env1 "MESON_AppRun_LD_LIBRARY_PATH" =
        getenv env "MESON_AppRun_LD_LIBRARY_PATH" ∧
      (∀ root, getenv env "MESON_AppRun_APPDIR" = some root →
        ∃ path args verbose,
          wrapper_main false true exe env argv = Outcome.handoff path args env1 verbose) := by
  have hframe : ∀ info : AppRunInfo,
      getenv (wrapper_env true info env) "LD_LIBRARY_PATH" = getenv env "LD_LIBRARY_PATH" ∧
      getenv (wrapper_env true info env) "MESON_AppRun_LD_LIBRARY_PATH" =
        getenv env "MESON_AppRun_LD_LIBRARY_PATH" := by
    intro info
    rw [wrapper_env_static]
    unfold getenv
    constructor
    · show (if _ then _ else if _ then _ else _) = _
      rw [if_neg (by decide), if_neg (by decide)]
    · show (if _ then _ else if _ then _ else _) = _
      rw [if_neg (by decide), if_neg (by decide)]
  refine ⟨hframe, ?_⟩
  cases hroot : getenv env "MESON_AppRun_APPDIR" with
  | none =>
    have hmain : wrapper_main false true exe env argv = Outcome.terminated 1 env := by
      have h1 : VAR_PREFIX ++ "APPDIR" = "MESON_AppRun_APPDIR" := by decide
      unfold wrapper_main
      rw [h1, hroot]
    refine ⟨env, by rw [hmain]; rfl, rfl, rfl, ?_⟩
    intro root h
    exact absurd h (by simp)
  | some root =>
    obtain ⟨args, path, hargs, hhead⟩ := wrapper_args_static_some exe
      { appdir := root
        appimage_path := none
        path := absolute root FAKEBIN
        ld_linux := absolute root "usr/lib/ld-linux.so"
        ld_library_path := absolute root "usr/lib"
        pythonhome := absolute root "usr" } argv
    have hmain := wrapper_main_of_root false true exe env argv root hroot
    rw [hargs] at hmain
    simp only [hhead] at hmain
    refine ⟨_, by rw [hmain]; rfl, (hframe _).1, (hframe _).2, ?_⟩
    intro _ _
    exact ⟨_, _, _, hmain⟩

/-! ## Environments at the handoff -/

theorem info_autofill_paths_some (root : String) (image : Option String) :
    info_autofill_paths (some root) image = some (bundleInfo root image) := rfl

theorem AppRun_env_eq (root image : String) (verbose : Bool) (env : Env) :
    AppRun_env (bundleInfo root (some image)) verbose env =
      some (fun n =>
        if verbose = true ∧ n = "MESON_AppRun_VERBOSE" then some "1"
        else if n = "PATH" then
          some (match env "PATH" with
            | none => absolute root "fakebin"
            | some old => absolute root "fakebin" ++ ":" ++ old)
        else if n = "MESON_AppRun_APPIMAGE" then some image
        else if n = "MESON_AppRun_APPDIR" then some root
        else env n) := by
  have h1 : VAR_PREFIX ++ "APPDIR" = "MESON_AppRun_APPDIR" := by decide
  have h2 : VAR_PREFIX ++ "APPIMAGE" = "MESON_AppRun_APPIMAGE" := by decide
  have h3 : VAR_PREFIX ++ "VERBOSE=1" = "MESON_AppRun_VERBOSE" ++ "=" ++ "1" := by decide
  have hf : FAKEBIN = "fakebin" := rfl
  unfold AppRun_env
  simp only [bundleInfo, h1, h2, h3, hf]
  rw [setenv_assign _ _ _ (by decide) (by decide), setenv_assign _ _ _ (by decide) (by decide)]
  congr 1
  cases hp : env "PATH" with
  | none =>
    rw [envPrepend_unset _ "PATH" _ (by decide) (by decide)
      (by show (if _ then _ else if _ then _ else _) = _
          rw [if_neg (by decide), if_neg (by decide)]; exact hp)]
    funext n
    cases verbose
    · simp
    · rw [if_pos rfl, putenv_assign _ _ _ (by decide)]
      by_cases hn : n = "MESON_AppRun_VERBOSE"
      · simp [hn]
      · simp [hn]
  | some old =>
    rw [envPrepend_set _ "PATH" _ old (by decide)
      (by show (if _ then _ else if _ then _ else _) = _
          rw [if_neg (by decide), if_neg (by decide)]; exact hp)]
    funext n
    cases verbose
    · simp
    · rw [if_pos rfl, putenv_assign _ _ _ (by decide)]
      by_cases hn : n = "MESON_AppRun_VERBOSE"
      · simp [hn]
      · simp [hn]

theorem wrapper_env_dynamic (info : AppRunInfo) (env : Env) :
    wrapper_env false info env =
      fun n =>
        if n = "PYTHONDONTWRITEBYTECODE" then some "1"
        else if n = "PYTHONHOME" then some info.pythonhome
        else if n = "LD_LIBRARY_PATH" then
          some (match env "LD_LIBRARY_PATH" with
            | none => info.ld_library_path
            | some old => info.ld_library_path ++ ":" ++ old)
        else if n = "MESON_AppRun_LD_LIBRARY_PATH" then
          some ((env "LD_LIBRARY_PATH").getD "")
        else env n := by
  have h1 : VAR_PREFIX ++ "LD_LIBRARY_PATH" = "MESON_AppRun_LD_LIBRARY_PATH" := by decide
  have hlit : "PYTHONDONTWRITEBYTECODE=1" = "PYTHONDONTWRITEBYTECODE" ++ "=" ++ "1" := by
    decide
  unfold wrapper_env
  simp only [Bool.not_false, if_true, h1, getenv]
  rw [hlit, putenv_assign _ _ _ (by decide), setenv_assign _ _ _ (by decide) (by decide),
    setenv_assign _ _ _ (by decide) (by decide)]
  cases hp : env "LD_LIBRARY_PATH" with
  | none =>
    rw [envPrepend_unset _ "LD_LIBRARY_PATH" _ (by decide) (by decide)
      (by show (if _ then _ else _) = _
          rw [if_neg (by decide)]; exact hp)]
  | some old =>
    rw [envPrepend_set _ "LD_LIBRARY_PATH" _ old (by decide)
      (by show (if _ then _ else _) = _
          rw [if_neg (by decide)]; exact hp)]

theorem AppRun_main_handoff_eq (realpath : String → Option String) (env : Env)
    (argv0 : String) (rest : List String) (root image : String)
    (hroot : dirname (realpath "/proc/self/exe") = some root)
    (himage : realpath argv0 = some image)
    (h : ∀ status, AppRun_scan (argv0 :: rest) ≠ Scan.stop status) :
    ∃ env1, AppRun_env (bundleInfo root (some image))
        (decide ("--apprun-verbose" ∈ flagPhase (argv0 :: rest))) env = some env1 ∧
      AppRun_main realpath env (argv0 :: rest) =
        Outcome.handoff (absolute root (chosenTool (flagPhase (argv0 :: rest))))
          (some (absolute root (chosenTool (flagPhase (argv0 :: rest)))) ::
            (((argv0 :: rest).drop (flagPhaseEnd (argv0 :: rest))).map some ++
              none :: List.replicate (flagPhaseEnd (argv0 :: rest) - 1) none))
          env1 (decide ("--apprun-verbose" ∈ flagPhase (argv0 :: rest))) := by
  rw [AppRun_main_of_root realpath env _ root hroot, AppRun_plan_done root argv0 rest h]
  have hinfo : ({ appdir := root
                  appimage_path := (argv0 :: rest).head?.bind realpath
                  path := absolute root FAKEBIN
                  ld_linux := absolute root "usr/lib/ld-linux.so"
                  ld_library_path := absolute root "usr/lib"
                  pythonhome := absolute root "usr" } : AppRunInfo) =
      bundleInfo root (some image) := by
    simp [bundleInfo, himage]
  simp only [hinfo]
  rw [AppRun_env_eq]
  exact ⟨_, rfl, rfl⟩

theorem AppRun_main_nil (realpath : String → Option String) (env : Env) :
    AppRun_main realpath env [] = Outcome.undefined := by
  obtain ⟨root, hroot⟩ := dirname_some (realpath "/proc/self/exe")
  rw [AppRun_main_of_root realpath env _ root hroot]
  rfl

theorem AppRun_main_handoff (realpath : String → Option String) (env : Env)
    (argv : List String) (path : String) (args : ArgArr) (env1 : Env) (verbose : Bool)
    (h : AppRun_main realpath env argv = Outcome.handoff path args env1 verbose) :
    ∃ root image argv0 rest, argv = argv0 :: rest ∧
      dirname (realpath "/proc/self/exe") = some root ∧
      realpath argv0 = some image ∧
      (∀ status, AppRun_scan argv ≠ Scan.stop status) ∧
      AppRun_env (bundleInfo root (some image)) verbose env = some env1 ∧
      path = absolute root (chosenTool (flagPhase argv)) ∧
      args = some (absolute root (chosenTool (flagPhase argv))) ::
        ((argv.drop (flagPhaseEnd argv)).map some ++
          none :: List.replicate (flagPhaseEnd argv - 1) none) ∧
      verbose = decide ("--apprun-verbose" ∈ flagPhase argv) := by
  obtain ⟨root, hroot⟩ := dirname_some (realpath "/proc/self/exe")
  cases argv with
  | nil =>
    rw [AppRun_main_nil] at h
    exact Outcome.noConfusion h
  | cons argv0 rest =>
    by_cases hstop : ∃ status, AppRun_scan (argv0 :: rest) = Scan.stop status
    · obtain ⟨status, hs⟩ := hstop
      rw [AppRun_main_stop realpath env _ status hs] at h
      exact Outcome.noConfusion h
    · have hscan : ∀ status, AppRun_scan (argv0 :: rest) ≠ Scan.stop status :=
        fun status hs => hstop ⟨status, hs⟩
      cases himage : realpath argv0 with
      | none =>
        rw [AppRun_main_no_image realpath env argv0 rest himage hscan] at h
        exact Outcome.noConfusion h
      | some image =>
        obtain ⟨e, he, hmain⟩ :=
          AppRun_main_handoff_eq realpath env argv0 rest root image hroot himage hscan
        rw [hmain] at h
        injection h with hp ha he1 hv
        subst hp ha he1 hv
        exact ⟨root, image, argv0, rest, rfl, hroot, himage, hscan, he, rfl, rfl, rfl⟩

theorem wrapper_main_unset (script static : Bool) (exe : String) (env : Env)
    (argv : List String) (h : getenv env "MESON_AppRun_APPDIR" = none) :
    wrapper_main script static exe env argv = Outcome.terminated 1 env := by
  have h1 : VAR_PREFIX ++ "APPDIR" = "MESON_AppRun_APPDIR" := by decide
  unfold wrapper_main
  rw [h1, h]

theorem wrapper_main_handoff (script static : Bool) (exe : String) (env : Env)
    (argv : List String) (path : String) (args : ArgArr) (env1 : Env) (verbose : Bool)
    (h : wrapper_main script static exe env argv = Outcome.handoff path args env1 verbose) :
    ∃ root, getenv env "MESON_AppRun_APPDIR" = some root ∧
      wrapper_args script static exe (bundleInfo root none) argv = some args ∧
      args.head? = some (some path) ∧
      env1 = wrapper_env static (bundleInfo root none) env ∧
      verbose = wrapper_verbose (getenv env "MESON_AppRun_VERBOSE") := by
  cases hroot : getenv env "MESON_AppRun_APPDIR" with
  | none =>
    rw [wrapper_main_unset script static exe env argv hroot] at h
    exact Outcome.noConfusion h
  | some root =>
    have hm := wrapper_main_of_root script static exe env argv root hroot
    rw [h] at hm
    change _ = (match wrapper_args script static exe (bundleInfo root none) argv with
      | none => Outcome.undefined
      | some args =>
        match args.head? with
        | some (some path) =>
          Outcome.handoff path args (wrapper_env static (bundleInfo root none) env)
            (wrapper_verbose (getenv env "MESON_AppRun_VERBOSE"))
        | _ => Outcome.undefined) at hm
    cases hargs : wrapper_args script static exe (bundleInfo root none) argv with
    | none =>
      rw [hargs] at hm
      exact Outcome.noConfusion hm
    | some a =>
      rw [hargs] at hm
      simp only [] at hm
      cases hhead : a.head? with
      | none =>
        rw [hhead] at hm
        exact Outcome.noConfusion hm
      | some x =>
        cases x with
        | none =>
          rw [hhead] at hm
          exact Outcome.noConfusion hm
        | some p =>
          rw [hhead] at hm
          injection hm with hp ha he hv
          subst hp ha he hv
          exact ⟨root, rfl, hargs, hhead, rfl, rfl⟩

/-- C11: in every launch mode, on every argument vector and every environment in which
`MESON_AppRun_APPDIR` is unset, `main` of the wrapper ends with `exit(1)` in the unchanged
environment and makes no `execv` call, whatever the arguments are (nothing has been stored
in `args` yet); when the marker is set, the run does not end with an `exit` before the
handoff. -/
theorem wrapper_requires_marker (script static : Bool) (exe : String) (env : Env)
    (argv : List String) :
    (getenv env "MESON_AppRun_APPDIR" = none →
      wrapper_main script static exe env argv = Outcome.terminated 1 env ∧
      (wrapper_main script static exe env argv).execv? = none ∧
      (wrapper_main script static exe env argv).env? = some env) ∧
    (∀ root, getenv env "MESON_AppRun_APPDIR" = some root →
      ∀ status env1,
        wrapper_main script static exe env argv ≠ Outcome.terminated status env1) := by
  constructor
  · intro h
    have hm := wrapper_main_unset script static exe env argv h
    exact ⟨hm, by rw [hm]; rfl, by rw [hm]; rfl⟩
  · intro root hroot status env1 hm
    rw [wrapper_main_of_root script static exe env argv root hroot] at hm
    split at hm
    · exact Outcome.noConfusion hm
    · split at hm
      · exact Outcome.noConfusion hm
      · exact Outcome.noConfusion hm

/-- Without the marker the dynamic wrapper for `meson` ends with status 1 in the unchanged
environment. -/
theorem wrapper_requires_marker_witness :
    wrapper_main false false "meson" hostEnv ["meson", "setup", "build"] =
      Outcome.terminated 1 hostEnv :=
  ((wrapper_requires_marker false false "meson" hostEnv ["meson", "setup", "build"]).1
    (by decide)).1

/-- C16: when `realpath("/proc/self/exe")` yields NULL, `dirname(NULL)` is `"."`, the test
`!info.appdir` does not fire and `main` of the selector goes on: started as
`./meson.AppImage build` it sets `MESON_AppRun_APPDIR=.` and calls
`execv("./fakebin/meson", ...)` instead of ending fatally. -/
theorem AppRun_unresolved_self_continues :
    noProcRealpath "/proc/self/exe" = none ∧
    dirname (noProcRealpath "/proc/self/exe") = some "." ∧
    (AppRun_main noProcRealpath hostEnv ["./meson.AppImage", "build"]).execv? =
      some ("./fakebin/meson", [some "./fakebin/meson", some "build", none]) ∧
    ((AppRun_main noProcRealpath hostEnv ["./meson.AppImage", "build"]).env?).bind
      (fun e => getenv e "MESON_AppRun_APPDIR") = some "." := by
  refine ⟨by decide, by decide, by decide, by decide⟩

/-- C17: whenever `main` of the selector reaches `execv`, the environment at that call has
`MESON_AppRun_APPDIR` set to the bundle root and `MESON_AppRun_APPIMAGE` to the resolved
`argv[0]`, `PATH` set to `absolute(bundleRoot, "fakebin")` followed by `:` and the old
`PATH` (alone when `PATH` was unset), `MESON_AppRun_VERBOSE` set to `1` when the verbosity
flag is set and as inherited otherwise, and every other variable as inherited. -/
theorem AppRun_environment (realpath : String → Option String) (env : Env)
    (argv : List String) (path : String) (args : ArgArr) (env1 : Env) (verbose : Bool)
    (h : AppRun_main realpath env argv = Outcome.handoff path args env1 verbose) :
    ∃ bundleRoot image argv0 rest, argv = argv0 :: rest ∧
      dirname (realpath "/proc/self/exe") = some bundleRoot ∧
      realpath argv0 = some image ∧
      verbose = decide ("--apprun-verbose" ∈ flagPhase argv) ∧
      getenv env1 "MESON_AppRun_APPDIR" = some bundleRoot ∧
      getenv env1 "MESON_AppRun_APPIMAGE" = some image ∧
      (∀ old, getenv env "PATH" = some old →
        getenv env1 "PATH" = some (absolute bundleRoot "fakebin" ++ ":" ++ old)) ∧
      (getenv env "PATH" = none →
        getenv env1 "PATH" = some (absolute bundleRoot "fakebin")) ∧
      (verbose = true → getenv env1 "MESON_AppRun_VERBOSE" = some "1") ∧
      (verbose = false →
        getenv env1 "MESON_AppRun_VERBOSE" = getenv env "MESON_AppRun_VERBOSE") ∧
      (∀ n, n ≠ "MESON_AppRun_APPDIR" → n ≠ "MESON_AppRun_APPIMAGE" → n ≠ "PATH" →
        n ≠ "MESON_AppRun_VERBOSE" → getenv env1 n = getenv env n) := by
  obtain ⟨root, image, argv0, rest, hargv, hroot, himage, _, henv, _, _, hv⟩ :=
    AppRun_main_handoff realpath env argv path args env1 verbose h
  rw [AppRun_env_eq] at henv
  have he := (Option.some.inj henv).symm
  refine ⟨root, image, argv0, rest, hargv, hroot, himage, hv, ?_, ?_, ?_, ?_, ?_, ?_, ?_⟩
  · rw [he]; simp [getenv]
  · rw [he]; simp [getenv]
  · intro old hold
    unfold getenv at hold
    rw [he]; simp [getenv, hold]
  · intro hnone
    unfold getenv at hnone
    rw [he]; simp [getenv, hnone]
  · intro hvt
    rw [he]; simp [getenv, hvt]
  · intro hvf
    rw [he]; simp [getenv, hvf]
  · intro n h1 h2 h3 h4
    rw [he]; simp [getenv, h1, h2, h3, h4]

/-- Started as `./meson.AppImage --apprun-verbose build` in `hostEnv`, the selector hands
off with `PATH=/tmp/m/fakebin:/usr/bin` and `MESON_AppRun_VERBOSE=1`. -/
theorem AppRun_environment_witness :
    ∃ path args env1, AppRun_main sampleRealpath hostEnv
        ["./meson.AppImage", "--apprun-verbose", "build"] =
      Outcome.handoff path args env1 true ∧
      getenv env1 "PATH" = some "/tmp/m/fakebin:/usr/bin" ∧
      getenv env1 "MESON_AppRun_VERBOSE" = some "1" := by
  have hmain : AppRun_main sampleRealpath hostEnv
      ["./meson.AppImage", "--apprun-verbose", "build"] =
      Outcome.handoff "/tmp/m/fakebin/meson" [some "/tmp/m/fakebin/meson", some "build",
        none, none]
        ((AppRun_main sampleRealpath hostEnv
          ["./meson.AppImage", "--apprun-verbose", "build"]).env?.getD hostEnv) true := rfl
  obtain ⟨root, image, argv0, rest, _, hroot, _, _, _, _, hpath, _, hverb, _, _⟩ :=
    AppRun_environment sampleRealpath hostEnv _ _ _ _ _ hmain
  have hr : dirname (sampleRealpath "/proc/self/exe") = some "/tmp/m" := by decide
  rw [hr] at hroot
  have hroot' : root = "/tmp/m" := (Option.some.inj hroot).symm
  subst hroot'
  exact ⟨_, _, _, hmain, hpath "/usr/bin" (by decide), hverb rfl⟩

/-- C18: in the non-static modes, with the bundle-root marker set to `R`, the wrapper reaches
`execv` in an environment in which `MESON_AppRun_LD_LIBRARY_PATH` holds the value
`LD_LIBRARY_PATH` had (the empty string when it was unset), `LD_LIBRARY_PATH` is
`absolute(R, "usr/lib")` followed by `:` and the old value (alone when it was unset),
`PYTHONHOME` is `absolute(R, "usr")`, `PYTHONDONTWRITEBYTECODE` is `1` and every other
variable is as inherited; a second non-static wrapper run in that environment puts the
library directory a second time at the front of `LD_LIBRARY_PATH`. -/
theorem wrapper_environment (script : Bool) (exe : String) (env : Env) (R argv0 : String)
    (rest : List String) (hR : getenv env "MESON_AppRun_APPDIR" = some R) :
    ∃ path args verbose env1,
      wrapper_main script false exe env (argv0 :: rest) =
        Outcome.handoff path args env1 verbose ∧
      getenv env1 "MESON_AppRun_LD_LIBRARY_PATH" =
        some ((getenv env "LD_LIBRARY_PATH").getD "") ∧
      (∀ old, getenv env "LD_LIBRARY_PATH" = some old →
        getenv env1 "LD_LIBRARY_PATH" = some (absolute R "usr/lib" ++ ":" ++ old)) ∧
      (getenv env "LD_LIBRARY_PATH" = none →
        getenv env1 "LD_LIBRARY_PATH" = some (absolute R "usr/lib")) ∧
      getenv env1 "PYTHONHOME" = some (absolute R "usr") ∧
      getenv env1 "PYTHONDONTWRITEBYTECODE" = some "1" ∧
      (∀ n, n ≠ "MESON_AppRun_LD_LIBRARY_PATH" → n ≠ "LD_LIBRARY_PATH" →
        n ≠ "PYTHONHOME" → n ≠ "PYTHONDONTWRITEBYTECODE" → getenv env1 n = getenv env n) ∧
      (∀ (script2 : Bool) (exe2 argv02 : String) (rest2 : List String),
        ∃ path2 args2 verbose2 env2,
          wrapper_main script2 false exe2 env1 (argv02 :: rest2) =
            Outcome.handoff path2 args2 env2 verbose2 ∧
          (∀ old, getenv env "LD_LIBRARY_PATH" = some old →
            getenv env2 "LD_LIBRARY_PATH" =
              some (absolute R "usr/lib" ++ ":" ++ (absolute R "usr/lib" ++ ":" ++ old))) ∧
          (getenv env "LD_LIBRARY_PATH" = none →
            getenv env2 "LD_LIBRARY_PATH" =
              some (absolute R "usr/lib" ++ ":" ++ absolute R "usr/lib"))) := by
  have hrun : ∀ (s : Bool) (x a0 : String) (r : List String) (e : Env),
      getenv e "MESON_AppRun_APPDIR" = some R →
      ∃ path args verbose, wrapper_main s false x e (a0 :: r) =
        Outcome.handoff path args (wrapper_env false (bundleInfo R none) e) verbose := by
    intro s x a0 r e he
    rw [wrapper_main_of_root s false x e _ R he]
    cases s
    · rw [wrapper_args_dynamic]
      exact ⟨_, _, _, rfl⟩
    · rw [wrapper_args_script]
      exact ⟨_, _, _, rfl⟩
  obtain ⟨path, args, verbose, hmain⟩ := hrun script exe argv0 rest env hR
  have hkeep : getenv (wrapper_env false (bundleInfo R none) env) "MESON_AppRun_APPDIR" =
      some R := by
    rw [wrapper_env_dynamic]
    unfold getenv at hR
    simp [getenv, hR]
  refine ⟨path, args, verbose, _, hmain, ?_, ?_, ?_, ?_, ?_, ?_, ?_⟩
  · rw [wrapper_env_dynamic]; simp [getenv]
  · intro old hold
    unfold getenv at hold
    rw [wrapper_env_dynamic]; simp [getenv, hold, bundleInfo]
  · intro hnone
    unfold getenv at hnone
    rw [wrapper_env_dynamic]; simp [getenv, hnone, bundleInfo]
  · rw [wrapper_env_dynamic]; simp [getenv, bundleInfo]
  · rw [wrapper_env_dynamic]; simp [getenv]
  · intro n h1 h2 h3 h4
    rw [wrapper_env_dynamic]; simp [getenv, h1, h2, h3, h4]
  · intro script2 exe2 argv02 rest2
    obtain ⟨path2, args2, verbose2, hmain2⟩ := hrun script2 exe2 argv02 rest2 _ hkeep
    refine ⟨path2, args2, verbose2, _, hmain2, ?_, ?_⟩
    · intro old hold
      unfold getenv at hold
      rw [wrapper_env_dynamic, wrapper_env_dynamic]; simp [getenv, hold, bundleInfo]
    · intro hnone
      unfold getenv at hnone
      rw [wrapper_env_dynamic, wrapper_env_dynamic]; simp [getenv, hnone, bundleInfo]

/-- In `bundleEnv` (no `LD_LIBRARY_PATH`) the dynamic wrapper for `meson` hands off with
`LD_LIBRARY_PATH=/tmp/m/usr/lib` and the empty saved marker. -/
theorem wrapper_environment_witness :
    ∃ path args verbose env1,
      wrapper_main false false "meson" bundleEnv ["meson", "setup"] =
        Outcome.handoff path args env1 verbose ∧
      getenv env1 "LD_LIBRARY_PATH" = some "/tmp/m/usr/lib" ∧
      getenv env1 "MESON_AppRun_LD_LIBRARY_PATH" = some "" := by
  obtain ⟨path, args, verbose, env1, hmain, hsaved, _, hunset, _⟩ :=
    wrapper_environment false "meson" bundleEnv "/tmp/m" "meson" ["setup"] (by decide)
  exact ⟨path, args, verbose, env1, hmain, hunset (by decide), hsaved⟩

theorem wrapper_env_agree (static : Bool) (info : AppRunInfo) (env env' : Env)
    (h : ∀ n, n ≠ "MESON_AppRun_VERBOSE" → env' n = env n) (n : String)
    (hn : n ≠ "MESON_AppRun_VERBOSE") :
    wrapper_env static info env' n = wrapper_env static info env n := by
  have hld : env' "LD_LIBRARY_PATH" = env "LD_LIBRARY_PATH" := h _ (by decide)
  cases static
  · rw [wrapper_env_dynamic, wrapper_env_dynamic]
    simp only [hld, h n hn]
  · rw [wrapper_env_static, wrapper_env_static]
    simp only [h n hn]

theorem wrapper_env_verbose_kept (static : Bool) (info : AppRunInfo) (env : Env) :
    wrapper_env static info env "MESON_AppRun_VERBOSE" = env "MESON_AppRun_VERBOSE" := by
  cases static
  · rw [wrapper_env_dynamic]; simp
  · rw [wrapper_env_static]; simp

/-- C20: with the bundle-root marker set, the wrapper's verbosity flag is true exactly when
`MESON_AppRun_VERBOSE` is set and its first character is not `0`: the empty value enables
it, every value starting with `0` disables it, and an unset variable leaves it off.  The flag
has no part in the argument array or the environment: two runs whose inherited environments
differ in `MESON_AppRun_VERBOSE` only call `execv` with the same program and array, in
environments that agree on every other variable and keep `MESON_AppRun_VERBOSE` as each
inherited it. -/
theorem wrapper_verbosity (script static : Bool) (exe : String) (env : Env) (root : String)
    (argv : List String) (hroot : getenv env "MESON_AppRun_APPDIR" = some root) :
    (∀ path args env1 verbose,
      wrapper_main script static exe env argv = Outcome.handoff path args env1 verbose →
      (verbose = true ↔
        ∃ v, getenv env "MESON_AppRun_VERBOSE" = some v ∧ v.data.head? ≠ some '0')) ∧
    (wrapper_verbose (getenv env "MESON_AppRun_VERBOSE") = true ↔
      ∃ v, getenv env "MESON_AppRun_VERBOSE" = some v ∧ v.data.head? ≠ some '0') ∧
    wrapper_verbose (some "") = true ∧
    wrapper_verbose (some "0") = false ∧
    wrapper_verbose (some "01") = false ∧
    (∀ v t, v.data = '0' :: t → wrapper_verbose (some v) = false) ∧
    wrapper_verbose none = false ∧
    (∀ env' : Env, (∀ n, n ≠ "MESON_AppRun_VERBOSE" → env' n = env n) →
      (wrapper_main script static exe env' argv).execv? =
        (wrapper_main script static exe env argv).execv? ∧
      ∀ e e', (wrapper_main script static exe env argv).env? = some e →
        (wrapper_main script static exe env' argv).env? = some e' →
        (∀ n, n ≠ "MESON_AppRun_VERBOSE" → e' n = e n) ∧
        e "MESON_AppRun_VERBOSE" = env "MESON_AppRun_VERBOSE" ∧
        e' "MESON_AppRun_VERBOSE" = env' "MESON_AppRun_VERBOSE") := by
  have hiff : ∀ o : Option String, wrapper_verbose o = true ↔
      ∃ v, o = some v ∧ v.data.head? ≠ some '0' := by
    intro o
    cases o with
    | none => simp [wrapper_verbose]
    | some v => simp [wrapper_verbose]
  refine ⟨?_, hiff _, by decide, by decide, by decide, ?_, rfl, ?_⟩
  · intro path args env1 verbose h
    obtain ⟨_, _, _, _, _, hv⟩ := wrapper_main_handoff script static exe env argv _ _ _ _ h
    rw [hv]
    exact hiff _
  · intro v t hv
    simp [wrapper_verbose, hv]
  · intro env' hagree
    have hroot' : getenv env' "MESON_AppRun_APPDIR" = some root := by
      unfold getenv at hroot ⊢
      rw [hagree _ (by decide)]
      exact hroot
    have hm := wrapper_main_of_root script static exe env argv root hroot
    have hm' := wrapper_main_of_root script static exe env' argv root hroot'
    rw [hm, hm']
    cases wrapper_args script static exe
        { appdir := root
          appimage_path := none
          path := absolute root FAKEBIN
          ld_linux := absolute root "usr/lib/ld-linux.so"
          ld_library_path := absolute root "usr/lib"
          pythonhome := absolute root "usr" } argv with
    | none =>
      refine ⟨rfl, ?_⟩
      intro e e' he
      exact Option.noConfusion he
    | some a =>
      simp only []
      cases hh : a.head? with
      | none =>
        refine ⟨rfl, ?_⟩
        intro e e' he
        exact Option.noConfusion he
      | some x =>
        cases x with
        | none =>
          refine ⟨rfl, ?_⟩
          intro e e' he
          exact Option.noConfusion he
        | some p =>
          refine ⟨rfl, ?_⟩
          intro e e' he he'
          have h1 := (Option.some.inj he).symm
          have h2 := (Option.some.inj he').symm
          subst h1 h2
          exact ⟨fun n hn => wrapper_env_agree static _ env env' hagree n hn,
            wrapper_env_verbose_kept static _ env, wrapper_env_verbose_kept static _ env'⟩

/-- With `MESON_AppRun_VERBOSE` set to the empty string the wrapper hands off with the
verbosity flag on. -/
theorem wrapper_verbosity_witness :
    ∃ path args env1,
      wrapper_main false false "meson" emptyVerboseEnv ["meson"] =
        Outcome.handoff path args env1 true ∧
      ∃ v, getenv emptyVerboseEnv "MESON_AppRun_VERBOSE" = some v ∧
        v.data.head? ≠ some '0' := by
  have hmain : wrapper_main false false "meson" emptyVerboseEnv ["meson"] =
      Outcome.handoff "/tmp/m/usr/lib/ld-linux.so"
        [some "/tmp/m/usr/lib/ld-linux.so", some "/tmp/m/usr/bin/meson", none, none]
        (wrapper_env false (bundleInfo "/tmp/m" none) emptyVerboseEnv) true := rfl
  have h := (wrapper_verbosity false false "meson" emptyVerboseEnv "/tmp/m" ["meson"]
    (by decide)).1 _ _ _ _ hmain
  exact ⟨_, _, _, hmain, h.mp rfl⟩

/-! ## The search paths across selector and wrapper -/

theorem prepend_ne_twice (dir original : String) :
    dir ++ ":" ++ original ≠ dir ++ ":" ++ (dir ++ ":" ++ original) := by
  intro h
  have hl := congrArg String.length h
  simp only [String.length_append] at hl
  have h1 : ":".length = 1 := rfl
  omega

theorem not_prepend_form (dir : String) :
    ¬ ∃ original : String, dir = dir ++ ":" ++ original := by
  rintro ⟨original, h⟩
  have hl := congrArg String.length h
  simp only [String.length_append] at hl
  have h1 : ":".length = 1 := rfl
  omega

/-- C12, counterexample: in `hostEnv`, where `LD_LIBRARY_PATH` is unset, the selector run
followed by a dynamic wrapper run ends with `LD_LIBRARY_PATH=/tmp/m/usr/lib`, the library
directory alone, which is not `bundleDir ++ ":" ++ original` for any `original`. -/
theorem round_trip_unset_counterexample :
    ∃ path args env1 verbose path2 args2 env2 verbose2,
      AppRun_main sampleRealpath hostEnv ["./meson.AppImage"] =
        Outcome.handoff path args env1 verbose ∧
      wrapper_main false false "meson" env1 ["meson"] =
        Outcome.handoff path2 args2 env2 verbose2 ∧
      getenv hostEnv "LD_LIBRARY_PATH" = none ∧
      getenv env2 "LD_LIBRARY_PATH" = some (absolute "/tmp/m" "usr/lib") ∧
      ¬ ∃ original : String, getenv env2 "LD_LIBRARY_PATH" =
        some (absolute "/tmp/m" "usr/lib" ++ ":" ++ original) := by
  refine ⟨_, _, _, _, _, _, _, _, rfl, rfl, rfl, rfl, ?_⟩
  rintro ⟨original, h⟩
  have h2 : (some (absolute "/tmp/m" "usr/lib") : Option String) =
      some (absolute "/tmp/m" "usr/lib" ++ ":" ++ original) := h
  exact not_prepend_form _ ⟨original, Option.some.inj h2⟩

/-- C12, amended: when a selector run reaches `execv` in environment `env1` and a
non-static wrapper run started in `env1` reaches `execv` in environment `env2`, then for each
of the two search paths, `PATH` with the directory `absolute(root, "fakebin")` and
`LD_LIBRARY_PATH` with the directory `absolute(root, "usr/lib")`: if the host had it set to
`original`, its value in `env2` is the directory, `:` and `original`, one copy of the
directory and not two; if the host had it unset, its value is the directory alone. -/
theorem selector_wrapper_round_trip (realpath : String → Option String) (host : Env)
    (argv : List String) (path : String) (args : ArgArr) (env1 : Env) (verbose : Bool)
    (script : Bool) (exe : String) (argv2 : List String) (path2 : String) (args2 : ArgArr)
    (env2 : Env) (verbose2 : Bool)
    (h1 : AppRun_main realpath host argv = Outcome.handoff path args env1 verbose)
    (h2 : wrapper_main script false exe env1 argv2 =
      Outcome.handoff path2 args2 env2 verbose2) :
    ∃ root, dirname (realpath "/proc/self/exe") = some root ∧
      (∀ original, getenv host "PATH" = some original →
        getenv env2 "PATH" = some (absolute root "fakebin" ++ ":" ++ original) ∧
        getenv env2 "PATH" ≠
          some (absolute root "fakebin" ++ ":" ++
            (absolute root "fakebin" ++ ":" ++ original))) ∧
      (getenv host "PATH" = none →
        getenv env2 "PATH" = some (absolute root "fakebin")) ∧
      (∀ original, getenv host "LD_LIBRARY_PATH" = some original →
        getenv env2 "LD_LIBRARY_PATH" = some (absolute root "usr/lib" ++ ":" ++ original) ∧
        getenv env2 "LD_LIBRARY_PATH" ≠
          some (absolute root "usr/lib" ++ ":" ++
            (absolute root "usr/lib" ++ ":" ++ original))) ∧
      (getenv host "LD_LIBRARY_PATH" = none →
        getenv env2 "LD_LIBRARY_PATH" = some (absolute root "usr/lib")) := by
  obtain ⟨root, image, argv0, rest, _, hroot, _, _, henv, _, _, _⟩ :=
    AppRun_main_handoff realpath host argv path args env1 verbose h1
  rw [AppRun_env_eq] at henv
  have he1 := (Option.some.inj henv).symm
  obtain ⟨root2, hroot2, _, _, he2, _⟩ :=
    wrapper_main_handoff script false exe env1 argv2 path2 args2 env2 verbose2 h2
  have hsame : root2 = root := by
    rw [he1] at hroot2
    simp [getenv] at hroot2
    exact hroot2.symm
  subst hsame
  rw [wrapper_env_dynamic] at he2
  refine ⟨root2, hroot, ?_, ?_, ?_, ?_⟩
  · intro original ho
    unfold getenv at ho
    have hv : getenv env2 "PATH" = some (absolute root2 "fakebin" ++ ":" ++ original) := by
      rw [he2, he1]; simp [getenv, ho]
    refine ⟨hv, ?_⟩
    rw [hv]
    intro hc
    exact prepend_ne_twice _ _ (Option.some.inj hc)
  · intro ho
    unfold getenv at ho
    rw [he2, he1]; simp [getenv, ho]
  · intro original ho
    unfold getenv at ho
    have hv : getenv env2 "LD_LIBRARY_PATH" =
        some (absolute root2 "usr/lib" ++ ":" ++ original) := by
      rw [he2, he1]; simp [getenv, ho, bundleInfo]
    refine ⟨hv, ?_⟩
    rw [hv]
    intro hc
    exact prepend_ne_twice _ _ (Option.some.inj hc)
  · intro ho
    unfold getenv at ho
    rw [he2, he1]; simp [getenv, ho, bundleInfo]

/-- From `libraryEnv` (`PATH=/usr/bin`, `LD_LIBRARY_PATH=/opt/lib`) the selector followed
by the dynamic wrapper gives `PATH=/tmp/m/fakebin:/usr/bin` and
`LD_LIBRARY_PATH=/tmp/m/usr/lib:/opt/lib`. -/
theorem selector_wrapper_round_trip_witness :
    ∃ path args env1 verbose path2 args2 env2 verbose2,
      AppRun_main sampleRealpath libraryEnv ["./meson.AppImage"] =
        Outcome.handoff path args env1 verbose ∧
      wrapper_main false false "meson" env1 ["meson"] =
        Outcome.handoff path2 args2 env2 verbose2 ∧
      getenv env2 "PATH" = some "/tmp/m/fakebin:/usr/bin" ∧
      getenv env2 "LD_LIBRARY_PATH" = some "/tmp/m/usr/lib:/opt/lib" := by
  have h1 : AppRun_main sampleRealpath libraryEnv ["./meson.AppImage"] =
      Outcome.handoff "/tmp/m/fakebin/meson" [some "/tmp/m/fakebin/meson", none]
        ((AppRun_main sampleRealpath libraryEnv ["./meson.AppImage"]).env?.getD libraryEnv)
        false := rfl
  have h2 : wrapper_main false false "meson"
      ((AppRun_main sampleRealpath libraryEnv ["./meson.AppImage"]).env?.getD libraryEnv)
      ["meson"] =
      Outcome.handoff "/tmp/m/usr/lib/ld-linux.so"
        [some "/tmp/m/usr/lib/ld-linux.so", some "/tmp/m/usr/bin/meson", none, none]
        (wrapper_env false (bundleInfo "/tmp/m" none)
          ((AppRun_main sampleRealpath libraryEnv ["./meson.AppImage"]).env?.getD
            libraryEnv))
        false := rfl
  obtain ⟨root, hroot, hpath, _, hld, _⟩ :=
    selector_wrapper_round_trip sampleRealpath libraryEnv _ _ _ _ _ false "meson" _ _ _ _ _
      h1 h2
  have hr : dirname (sampleRealpath "/proc/self/exe") = some "/tmp/m" := by decide
  rw [hr] at hroot
  have hroot' : root = "/tmp/m" := (Option.some.inj hroot).symm
  subst hroot'
  exact ⟨_, _, _, _, _, _, _, _, h1, h2, (hpath "/usr/bin" (by decide)).1,
    (hld "/opt/lib" (by decide)).1⟩

/-- C13, counterexample: in `savedEnv` the saved marker holds `/host/lib` and
`LD_LIBRARY_PATH` holds `/cur/lib`; the dynamic wrapper hands off with
`LD_LIBRARY_PATH=/tmp/m/usr/lib:/cur/lib`, built on the inherited `LD_LIBRARY_PATH` and not
on the marker, and the marker now holds `/cur/lib`. -/
theorem wrapper_ignores_saved_counterexample :
    ∃ path args env1 verbose,
      wrapper_main false false "meson" savedEnv ["meson"] =
        Outcome.handoff path args env1 verbose ∧
      getenv savedEnv "MESON_AppRun_LD_LIBRARY_PATH" = some "/host/lib" ∧
      getenv env1 "LD_LIBRARY_PATH" = some "/tmp/m/usr/lib:/cur/lib" ∧
      getenv env1 "LD_LIBRARY_PATH" ≠
        some (absolute "/tmp/m" "usr/lib" ++ ":" ++ "/host/lib") ∧
      getenv env1 "MESON_AppRun_LD_LIBRARY_PATH" = some "/cur/lib" := by
  refine ⟨_, _, _, _, rfl, rfl, rfl, ?_, rfl⟩
  decide

/-- C13, amended: in the non-static modes, with the bundle-root marker set to `root`, the
wrapper prepends the library directory to the inherited value of `LD_LIBRARY_PATH` itself:
the result is `absolute(root, "usr/lib")`, `:` and that value, or the directory alone when
`LD_LIBRARY_PATH` was unset.  The saved marker `MESON_AppRun_LD_LIBRARY_PATH` is not read:
changing its inherited value changes nothing in the resulting `LD_LIBRARY_PATH`, and the
wrapper overwrites it with the inherited `LD_LIBRARY_PATH` (empty when unset). -/
theorem wrapper_prepends_inherited (script : Bool) (exe : String) (env : Env)
    (root argv0 : String) (rest : List String)
    (hroot : getenv env "MESON_AppRun_APPDIR" = some root) :
    ∃ path args verbose env1,
      wrapper_main script false exe env (argv0 :: rest) =
        Outcome.handoff path args env1 verbose ∧
      (∀ L, getenv env "LD_LIBRARY_PATH" = some L →
        getenv env1 "LD_LIBRARY_PATH" = some (absolute root "usr/lib" ++ ":" ++ L)) ∧
      (getenv env "LD_LIBRARY_PATH" = none →
        getenv env1 "LD_LIBRARY_PATH" = some (absolute root "usr/lib")) ∧
      getenv env1 "MESON_AppRun_LD_LIBRARY_PATH" =
        some ((getenv env "LD_LIBRARY_PATH").getD "") ∧
      (∀ env' : Env, (∀ n, n ≠ "MESON_AppRun_LD_LIBRARY_PATH" → env' n = env n) →
        ∃ path' args' verbose' env1',
          wrapper_main script false exe env' (argv0 :: rest) =
            Outcome.handoff path' args' env1' verbose' ∧
          getenv env1' "LD_LIBRARY_PATH" = getenv env1 "LD_LIBRARY_PATH") := by
  have hrun : ∀ e : Env, getenv e "MESON_AppRun_APPDIR" = some root →
      ∃ path args verbose, wrapper_main script false exe e (argv0 :: rest) =
        Outcome.handoff path args (wrapper_env false (bundleInfo root none) e) verbose := by
    intro e he
    rw [wrapper_main_of_root script false exe e _ root he]
    cases script
    · rw [wrapper_args_dynamic]
      exact ⟨_, _, _, rfl⟩
    · rw [wrapper_args_script]
      exact ⟨_, _, _, rfl⟩
  obtain ⟨path, args, verbose, hmain⟩ := hrun env hroot
  refine ⟨path, args, verbose, _, hmain, ?_, ?_, ?_, ?_⟩
  · intro L hL
    unfold getenv at hL
    rw [wrapper_env_dynamic]; simp [getenv, hL, bundleInfo]
  · intro hnone
    unfold getenv at hnone
    rw [wrapper_env_dynamic]; simp [getenv, hnone, bundleInfo]
  · rw [wrapper_env_dynamic]; simp [getenv]
  · intro env' hagree
    have hroot' : getenv env' "MESON_AppRun_APPDIR" = some root := by
      unfold getenv at hroot ⊢
      rw [hagree _ (by decide)]
      exact hroot
    obtain ⟨path', args', verbose', hmain'⟩ := hrun env' hroot'
    refine ⟨path', args', verbose', _, hmain', ?_⟩
    have hld : env' "LD_LIBRARY_PATH" = env "LD_LIBRARY_PATH" := hagree _ (by decide)
    rw [wrapper_env_dynamic, wrapper_env_dynamic]
    simp [getenv, hld]

/-- In `savedEnv` the dynamic wrapper hands off with
`LD_LIBRARY_PATH=/tmp/m/usr/lib:/cur/lib`. -/
theorem wrapper_prepends_inherited_witness :
    ∃ path args verbose env1,
      wrapper_main false false "meson" savedEnv ["meson", "setup"] =
        Outcome.handoff path args env1 verbose ∧
      getenv env1 "LD_LIBRARY_PATH" = some "/tmp/m/usr/lib:/cur/lib" := by
  obtain ⟨path, args, verbose, env1, hmain, hset, _⟩ :=
    wrapper_prepends_inherited false "meson" savedEnv "/tmp/m" "meson" ["setup"] (by decide)
  exact ⟨path, args, verbose, env1, hmain, hset "/cur/lib" (by decide)⟩

/-- C14, counterexample: in `hostEnv` the search path is `PATH=/usr/bin`; in the
environment in which the selector hands off, no variable holds `/usr/bin`, the value `PATH`
had before the prepend, and `MESON_AppRun_LD_LIBRARY_PATH` is unset. -/
theorem selector_saves_nothing_counterexample :
    ∃ path args env1 verbose,
      AppRun_main sampleRealpath hostEnv ["./meson.AppImage"] =
        Outcome.handoff path args env1 verbose ∧
      getenv hostEnv "PATH" = some "/usr/bin" ∧
      getenv env1 "PATH" = some "/tmp/m/fakebin:/usr/bin" ∧
      getenv env1 "MESON_AppRun_LD_LIBRARY_PATH" = none ∧
      ¬ ∃ name, getenv env1 name = some "/usr/bin" := by
  obtain ⟨e, he, hm⟩ := AppRun_main_handoff_eq sampleRealpath hostEnv "./meson.AppImage" []
    "/tmp/m" "/home/u/meson.AppImage" (by decide) (by decide)
    (fun status h => by
      rw [show AppRun_scan ["./meson.AppImage"] = Scan.done 1 "fakebin/meson" false
        from by decide] at h
      exact Scan.noConfusion h)
  rw [AppRun_env_eq] at he
  have he' := (Option.some.inj he).symm
  have hp : absolute "/tmp/m" "fakebin" ++ ":" ++ "/usr/bin" = "/tmp/m/fakebin:/usr/bin" := by
    decide
  refine ⟨_, _, e, _, hm, rfl, ?_, ?_, ?_⟩
  · rw [he']; simp [getenv, hostEnv, hp]
  · rw [he']; simp [getenv, hostEnv]
  · rintro ⟨name, hname⟩
    rw [he'] at hname
    simp only [getenv, hostEnv] at hname
    by_cases h3 : name = "PATH"
    · subst h3
      simp [hp] at hname
    by_cases h1 : name = "MESON_AppRun_APPDIR"
    · subst h1
      simp at hname
    by_cases h2 : name = "MESON_AppRun_APPIMAGE"
    · subst h2
      simp at hname
    simp [h1, h2, h3] at hname

/-- C14, amended: the selector writes no saved search-path marker.  Whenever it reaches
`execv`, `MESON_AppRun_LD_LIBRARY_PATH` and every other variable except
`MESON_AppRun_APPDIR`, `MESON_AppRun_APPIMAGE`, `PATH` and `MESON_AppRun_VERBOSE` are as
inherited.  The marker is written by the wrapper: a non-static wrapper run started in the
selector's environment reaches `execv` with `MESON_AppRun_LD_LIBRARY_PATH` holding the value
`LD_LIBRARY_PATH` had before the wrapper's prepend, which is the host's value (the empty
string when unset). -/
theorem selector_leaves_marker (realpath : String → Option String) (env : Env)
    (argv : List String) (path : String) (args : ArgArr) (env1 : Env) (verbose : Bool)
    (h : AppRun_main realpath env argv = Outcome.handoff path args env1 verbose) :
    getenv env1 "MESON_AppRun_LD_LIBRARY_PATH" = getenv env "MESON_AppRun_LD_LIBRARY_PATH" ∧
    (∀ n, n ≠ "MESON_AppRun_APPDIR" → n ≠ "MESON_AppRun_APPIMAGE" → n ≠ "PATH" →
      n ≠ "MESON_AppRun_VERBOSE" → getenv env1 n = getenv env n) ∧
    (∀ (script : Bool) (exe argv0 : String) (rest : List String),
      ∃ path2 args2 verbose2 env2,
        wrapper_main script false exe env1 (argv0 :: rest) =
          Outcome.handoff path2 args2 env2 verbose2 ∧
        getenv env2 "MESON_AppRun_LD_LIBRARY_PATH" =
          some ((getenv env "LD_LIBRARY_PATH").getD "")) := by
  obtain ⟨root, image, argv0, rest, _, _, _, _, henv, _, _, _⟩ :=
    AppRun_main_handoff realpath env argv path args env1 verbose h
  rw [AppRun_env_eq] at henv
  have he := (Option.some.inj henv).symm
  have hframe : ∀ n, n ≠ "MESON_AppRun_APPDIR" → n ≠ "MESON_AppRun_APPIMAGE" → n ≠ "PATH" →
      n ≠ "MESON_AppRun_VERBOSE" → getenv env1 n = getenv env n := by
    intro n h1 h2 h3 h4
    rw [he]; simp [getenv, h1, h2, h3, h4]
  refine ⟨hframe _ (by decide) (by decide) (by decide) (by decide), hframe, ?_⟩
  intro script exe a0 r
  have hdir : getenv env1 "MESON_AppRun_APPDIR" = some root := by
    rw [he]; simp [getenv]
  have hld : getenv env1 "LD_LIBRARY_PATH" = getenv env "LD_LIBRARY_PATH" :=
    hframe _ (by decide) (by decide) (by decide) (by decide)
  rw [wrapper_main_of_root script false exe env1 _ root hdir]
  have hval : getenv
      (wrapper_env false
        { appdir := root
          appimage_path := none
          path := absolute root FAKEBIN
          ld_linux := absolute root "usr/lib/ld-linux.so"
          ld_library_path := absolute root "usr/lib"
          pythonhome := absolute root "usr" } env1) "MESON_AppRun_LD_LIBRARY_PATH" =
      some ((getenv env "LD_LIBRARY_PATH").getD "") := by
    rw [← hld, wrapper_env_dynamic]; simp [getenv]
  cases script
  · rw [wrapper_args_dynamic]
    exact ⟨_, _, _, _, rfl, hval⟩
  · rw [wrapper_args_script]
    exact ⟨_, _, _, _, rfl, hval⟩

/-- From `libraryEnv` the selector hands off with the marker still unset, and the dynamic
wrapper then stores the host's `LD_LIBRARY_PATH`, `/opt/lib`, in it. -/
theorem selector_leaves_marker_witness :
    ∃ path args env1 verbose,
      AppRun_main sampleRealpath libraryEnv ["./meson.AppImage"] =
        Outcome.handoff path args env1 verbose ∧
      getenv env1 "MESON_AppRun_LD_LIBRARY_PATH" = none ∧
      ∃ path2 args2 verbose2 env2,
        wrapper_main false false "meson" env1 ["meson"] =
          Outcome.handoff path2 args2 env2 verbose2 ∧
        getenv env2 "MESON_AppRun_LD_LIBRARY_PATH" = some "/opt/lib" := by
  have hmain : AppRun_main sampleRealpath libraryEnv ["./meson.AppImage"] =
      Outcome.handoff "/tmp/m/fakebin/meson" [some "/tmp/m/fakebin/meson", none]
        ((AppRun_main sampleRealpath libraryEnv ["./meson.AppImage"]).env?.getD libraryEnv)
        false := rfl
  obtain ⟨hmark, _, hwrap⟩ := selector_leaves_marker sampleRealpath libraryEnv _ _ _ _ _ hmain
  exact ⟨_, _, _, _, hmain, hmark, hwrap false "meson" "meson" []⟩

/-! ## The program handed to `execv` -/

theorem beginsWith_slash_iff (a : String) :
    beginsWith "/" a = true ↔ a.data.head? = some '/' := by
  unfold beginsWith
  have h : "/".data = ['/'] := rfl
  rw [h]
  cases a.data with
  | nil => simp [List.isPrefixOf]
  | cons c t =>
    simp [List.isPrefixOf]
    constructor
    · intro e; exact e.symm
    · intro e; exact e.symm

theorem absolute_begins_slash (root rel : String) (h : beginsWith "/" root = true) :
    beginsWith "/" (absolute root rel) = true := by
  rw [beginsWith_slash_iff] at h ⊢
  rw [absolute_eq]
  simp only [String.data_append]
  cases hr : root.data with
  | nil => rw [hr] at h; simp at h
  | cons c t => rw [hr] at h; simpa using h

theorem memrchrSlash_some (s : List Char) (h : s.get? 0 = some '/') (n : Nat) (hn : 0 < n) :
    ∃ l, memrchrSlash s n = some l := by
  induction n with
  | zero => omega
  | succ k ih =>
    unfold memrchrSlash
    by_cases hk : s.get? k = some '/'
    · exact ⟨k, by rw [if_pos hk]⟩
    · rw [if_neg hk]
      have hk0 : 0 < k := by
        rcases Nat.eq_zero_or_pos k with h0 | h0
        · subst h0; exact absurd h hk
        · exact h0
      exact ih hk0

theorem dirname_begins_slash (p : String) (h : beginsWith "/" p = true) :
    ∃ d, dirname (some p) = some d ∧ beginsWith "/" d = true := by
  rw [beginsWith_slash_iff] at h
  obtain ⟨t, ht⟩ : ∃ t, p.data = '/' :: t := by
    cases hp : p.data with
    | nil => rw [hp] at h; simp at h
    | cons c t =>
      rw [hp] at h
      simp at h
      exact ⟨t, by rw [h]⟩
  have h0 : p.data.get? 0 = some '/' := by rw [ht]; rfl
  have hlen : 0 < p.data.length := by rw [ht]; simp
  have hfinal : ∀ l : Nat, ∃ d,
      (some (String.mk (p.data.take
        (if skipSlashes p.data l = 0 then (if l = 1 then 2 else 1)
          else skipSlashes p.data l))) : Option String) = some d ∧
      beginsWith "/" d = true := by
    intro l
    refine ⟨_, rfl, ?_⟩
    rw [beginsWith_slash_iff]
    have hcut : ∃ c, (if skipSlashes p.data l = 0 then (if l = 1 then 2 else 1)
        else skipSlashes p.data l) = c + 1 := by
      by_cases hz : skipSlashes p.data l = 0
      · rw [if_pos hz]
        by_cases h1 : l = 1
        · exact ⟨1, by rw [if_pos h1]⟩
        · exact ⟨0, by rw [if_neg h1]⟩
      · rw [if_neg hz]
        exact ⟨skipSlashes p.data l - 1, by omega⟩
    obtain ⟨c, hc⟩ := hcut
    rw [hc, ht]
    rfl
  unfold dirname
  simp only []
  obtain ⟨l, hl⟩ := memrchrSlash_some p.data h0 p.data.length hlen
  rw [hl]
  simp only []
  by_cases hcond : l ≠ 0 ∧ l + 1 = p.data.length
  · rw [if_pos hcond]
    by_cases hr : skipSlashes p.data l ≠ 0
    · rw [if_pos hr]
      obtain ⟨l2, hl2⟩ := memrchrSlash_some p.data h0 (skipSlashes p.data l) (by omega)
      rw [hl2]
      exact hfinal l2
    · rw [if_neg hr]
      exact hfinal l
  · rw [if_neg hcond]
    exact hfinal l

theorem write_zero_head (a b : ArgArr) (v : Option String)
    (h : ArgArr.write a 0 v = some b) : b.head? = some v := by
  unfold ArgArr.write at h
  cases a with
  | nil => simp at h
  | cons x xs =>
    simp at h
    rw [← h]
    rfl

theorem write_succ_head (a b : ArgArr) (i : Nat) (v : Option String)
    (h : ArgArr.write a (i + 1) v = some b) : b.head? = a.head? := by
  unfold ArgArr.write at h
  cases a with
  | nil => simp at h
  | cons x xs =>
    split at h
    · have := Option.some.inj h
      rw [← this]
      rfl
    · exact Option.noConfusion h

theorem wrapper_args_head (script static : Bool) (exe : String) (info : AppRunInfo)
    (argv : List String) (args : ArgArr)
    (h : wrapper_args script static exe info argv = some args) :
    args.head? = some (some
      (if script = true then info.ld_linux
        else if static = true then absolute info.appdir ("usr/bin/" ++ exe)
        else info.ld_linux)) := by
  unfold wrapper_args at h
  simp only [] at h
  split at h
  · exact Option.noConfusion h
  · split at h
    · exact Option.noConfusion h
    · cases script
      · cases static
        · simp only [Bool.false_eq_true, if_false] at h ⊢
          split at h
          · exact Option.noConfusion h
          · rename_i a0 h0
            rw [write_succ_head _ _ 0 _ h, write_zero_head _ _ _ h0]
        · simp only [Bool.false_eq_true, if_false, if_true] at h ⊢
          exact write_zero_head _ _ _ h
      · simp only [if_true] at h ⊢
        split at h
        · exact Option.noConfusion h
        · rename_i a0 h0
          split at h
          · exact Option.noConfusion h
          · rename_i a1 h1
            rw [write_succ_head _ _ 1 _ h, write_succ_head _ _ 0 _ h1,
              write_zero_head _ _ _ h0]

/-- C15, counterexample: with the bundle-root marker set to the relative path `bundle`, the
dynamic wrapper for `meson` reaches `execv` with `argv[0] = bundle/usr/lib/ld-linux.so`,
which is the program executed but does not begin with `/`. -/
theorem wrapper_relative_root_counterexample :
    ∃ path args env1 verbose,
      wrapper_main false false "meson" relativeEnv ["meson"] =
        Outcome.handoff path args env1 verbose ∧
      getenv relativeEnv "MESON_AppRun_APPDIR" = some "bundle" ∧
      path = "bundle/usr/lib/ld-linux.so" ∧
      args.head? = some (some path) ∧
      beginsWith "/" path = false := by
  refine ⟨_, _, _, _, rfl, rfl, rfl, rfl, ?_⟩
  decide

/-- C15, amended: whenever the selector or the wrapper, in any launch mode, reaches the
handoff, `argv[0]` of the array is the very path given to `execv` as the program; it is the
bundle root, `/` and a fixed suffix, so it begins with `/` whenever the bundle root does:
for the wrapper when the value of `MESON_AppRun_APPDIR` begins with `/`, for the selector
when `realpath("/proc/self/exe")` yields a path beginning with `/`. -/
theorem handoff_program :
    (∀ (realpath : String → Option String) (env : Env) (argv : List String) (path : String)
        (args : ArgArr) (env1 : Env) (verbose : Bool),
      AppRun_main realpath env argv = Outcome.handoff path args env1 verbose →
      args.head? = some (some path) ∧
      (∀ self, realpath "/proc/self/exe" = some self → beginsWith "/" self = true →
        beginsWith "/" path = true)) ∧
    (∀ (script static : Bool) (exe : String) (env : Env) (argv : List String) (path : String)
        (args : ArgArr) (env1 : Env) (verbose : Bool),
      wrapper_main script static exe env argv = Outcome.handoff path args env1 verbose →
      args.head? = some (some path) ∧
      (∀ root, getenv env "MESON_AppRun_APPDIR" = some root → beginsWith "/" root = true →
        beginsWith "/" path = true)) := by
  constructor
  · intro realpath env argv path args env1 verbose h
    obtain ⟨root, image, argv0, rest, _, hroot, _, _, _, hpath, hargs, _⟩ :=
      AppRun_main_handoff realpath env argv path args env1 verbose h
    refine ⟨by rw [hargs, hpath]; rfl, ?_⟩
    intro self hself habs
    obtain ⟨d, hd, hdabs⟩ := dirname_begins_slash self habs
    rw [hself, hd] at hroot
    have hroot' : d = root := Option.some.inj hroot
    subst hroot'
    rw [hpath]
    exact absolute_begins_slash _ _ hdabs
  · intro script static exe env argv path args env1 verbose h
    obtain ⟨root, hroot, hargs, hhead, _, _⟩ :=
      wrapper_main_handoff script static exe env argv path args env1 verbose h
    refine ⟨hhead, ?_⟩
    intro root' hroot' habs
    rw [hroot] at hroot'
    have hsame : root = root' := Option.some.inj hroot'
    subst hsame
    have hh := wrapper_args_head script static exe _ argv args hargs
    rw [hhead] at hh
    have hp := Option.some.inj (Option.some.inj hh)
    rw [hp]
    cases script
    · cases static
      · exact absolute_begins_slash _ _ habs
      · exact absolute_begins_slash _ _ habs
    · exact absolute_begins_slash _ _ habs

/-- With the bundle root `/tmp/m` the static wrapper for `ninja` executes
`/tmp/m/usr/bin/ninja`, which is `argv[0]` and begins with `/`. -/
theorem handoff_program_witness :
    ∃ args env1 verbose,
      wrapper_main false true "ninja" bundleEnv ["ninja", "-v"] =
        Outcome.handoff "/tmp/m/usr/bin/ninja" args env1 verbose ∧
      args.head? = some (some "/tmp/m/usr/bin/ninja") ∧
      beginsWith "/" "/tmp/m/usr/bin/ninja" = true := by
  have hmain : wrapper_main false true "ninja" bundleEnv ["ninja", "-v"] =
      Outcome.handoff "/tmp/m/usr/bin/ninja"
        [some "/tmp/m/usr/bin/ninja", some "-v", none, none, none]
        (wrapper_env true (bundleInfo "/tmp/m" none) bundleEnv) false := rfl
  obtain ⟨hhead, habs⟩ := handoff_program.2 false true "ninja" bundleEnv _ _ _ _ _ hmain
  exact ⟨_, _, _, hmain, hhead, habs "/tmp/m" (by decide) (by decide)⟩

/-! ## Bounds and shape of the argument arrays -/

theorem wrapper_args_script_static_single (exe : String) (info : AppRunInfo)
    (argv0 : String) :
    wrapper_args true true exe info [argv0] =
      some [some info.ld_linux, some (absolute info.appdir "usr/bin/python3"),
        some (absolute info.appdir ("usr/bin/" ++ exe)), none] := by
  have hc : 2 + flag true - flag true = 2 := by decide
  unfold wrapper_args
  simp only [List.drop_succ_cons, List.drop_zero, hc]
  rw [wrapper_copy 2 (by omega)]
  simp only []
  rw [wrapper_terminator 2 (by omega)]
  simp [ArgArr.write, List.replicate]

theorem AppRun_plan_defined (root argv0 : String) (rest : List String) :
    AppRun_plan root (argv0 :: rest) ≠ Planned.undefined := by
  by_cases hstop : ∃ status, AppRun_scan (argv0 :: rest) = Scan.stop status
  · obtain ⟨status, hs⟩ := hstop
    unfold AppRun_plan
    rw [hs]
    exact Planned.noConfusion
  · have hscan : ∀ status, AppRun_scan (argv0 :: rest) ≠ Scan.stop status :=
      fun status hs => hstop ⟨status, hs⟩
    rw [AppRun_plan_done root argv0 rest hscan]
    exact Planned.noConfusion

theorem AppRun_plan_shape (root argv0 : String) (rest : List String) (p : LaunchPlan)
    (h : AppRun_plan root (argv0 :: rest) = Planned.plan p) :
    p.args = some (absolute root p.prog) ::
      (((argv0 :: rest).drop (flagPhaseEnd (argv0 :: rest))).map some ++
        none :: List.replicate (flagPhaseEnd (argv0 :: rest) - 1) none) := by
  by_cases hstop : ∃ status, AppRun_scan (argv0 :: rest) = Scan.stop status
  · obtain ⟨status, hs⟩ := hstop
    unfold AppRun_plan at h
    rw [hs] at h
    exact Planned.noConfusion h
  · have hscan : ∀ status, AppRun_scan (argv0 :: rest) ≠ Scan.stop status :=
      fun status hs => hstop ⟨status, hs⟩
    rw [AppRun_plan_done root argv0 rest hscan] at h
    have hp := Planned.plan.inj h
    rw [← hp]

/-- C19, counterexample: the dynamic wrapper for `meson`, started without further arguments
under the bundle root `/tmp/m`, reaches `execv` with the array
`[loader, target, NULL, NULL]`: the array of `argc + 3 = 4` slots holds two NULL slots, the
stored terminator and one slot left by `memset`, not exactly one. -/
theorem args_array_spare_counterexample :
    ∃ path args env1 verbose,
      wrapper_main false false "meson" bundleEnv ["meson"] =
        Outcome.handoff path args env1 verbose ∧
      args = [some "/tmp/m/usr/lib/ld-linux.so", some "/tmp/m/usr/bin/meson", none, none] ∧
      args.count none = 2 := by
  refine ⟨_, _, _, _, rfl, rfl, ?_⟩
  decide

/-- C19, amended: for every `argc >= 1` (`argv = argv0 :: rest`), in the selector and in
the wrapper for each combination of `IS_PYTHON_SCRIPT` and `STATICALLY_LINKED`, no store
goes outside the array (of `argc + 1`, respectively `argc + 3` slots), and the array built
consists of non-null strings, then a NULL slot, then only NULL slots: the strings end with
the last forwarded argument, the first NULL comes immediately after it, and the slots after
it, `k - 1` in the selector and `1 + STATICALLY_LINKED - IS_PYTHON_SCRIPT` in the three
launch modes of the wrapper, are the NULLs left by `memset`. -/
theorem args_array_shape (argv0 : String) (rest : List String) :
    (∀ root : String, AppRun_plan root (argv0 :: rest) ≠ Planned.undefined ∧
      ∀ p, AppRun_plan root (argv0 :: rest) = Planned.plan p →
        p.args.length = (argv0 :: rest).length + 1 ∧
        p.args = (absolute root p.prog ::
            (argv0 :: rest).drop (flagPhaseEnd (argv0 :: rest))).map some ++
          none :: List.replicate (flagPhaseEnd (argv0 :: rest) - 1) none) ∧
    (∀ (script static : Bool) (exe : String) (info : AppRunInfo),
      ∃ (strings : List String) (spare : Nat),
        wrapper_args script static exe info (argv0 :: rest) =
          some (strings.map some ++ none :: List.replicate spare none) ∧
        strings.length + 1 + spare = (argv0 :: rest).length + 3) ∧
    (∀ (exe : String) (info : AppRunInfo),
      wrapper_args false false exe info (argv0 :: rest) =
        some ((info.ld_linux :: absolute info.appdir ("usr/bin/" ++ exe) :: rest).map some ++
          none :: List.replicate 1 none) ∧
      wrapper_args false true exe info (argv0 :: rest) =
        some ((absolute info.appdir ("usr/bin/" ++ exe) :: rest).map some ++
          none :: List.replicate 2 none) ∧
      wrapper_args true false exe info (argv0 :: rest) =
        some ((info.ld_linux :: absolute info.appdir "usr/bin/python3" ::
            absolute info.appdir ("usr/bin/" ++ exe) :: rest).map some ++
          none :: List.replicate 0 none)) := by
  have hdyn : ∀ (exe : String) (info : AppRunInfo),
      wrapper_args false false exe info (argv0 :: rest) =
        some ((info.ld_linux :: absolute info.appdir ("usr/bin/" ++ exe) :: rest).map some ++
          none :: List.replicate 1 none) := by
    intro exe info
    rw [wrapper_args_dynamic]
    simp [List.replicate]
  have hsta : ∀ (exe : String) (info : AppRunInfo),
      wrapper_args false true exe info (argv0 :: rest) =
        some ((absolute info.appdir ("usr/bin/" ++ exe) :: rest).map some ++
          none :: List.replicate 2 none) := by
    intro exe info
    rw [wrapper_args_static]
    simp [List.replicate]
  have hscr : ∀ (exe : String) (info : AppRunInfo),
      wrapper_args true false exe info (argv0 :: rest) =
        some ((info.ld_linux :: absolute info.appdir "usr/bin/python3" ::
            absolute info.appdir ("usr/bin/" ++ exe) :: rest).map some ++
          none :: List.replicate 0 none) := by
    intro exe info
    rw [wrapper_args_script]
    simp [List.replicate]
  refine ⟨?_, ?_, fun exe info => ⟨hdyn exe info, hsta exe info, hscr exe info⟩⟩
  · intro root
    refine ⟨AppRun_plan_defined root argv0 rest, ?_⟩
    intro p hp
    have hshape := AppRun_plan_shape root argv0 rest p hp
    obtain ⟨h1, h2, _, _⟩ := flagPhaseEnd_least argv0 rest
    constructor
    · rw [hshape]
      simp only [List.length_cons, List.length_append, List.length_map, List.length_drop,
        List.length_replicate] at h2 ⊢
      omega
    · rw [hshape]
      simp
  · intro script static exe info
    cases script
    · cases static
      · exact ⟨_, 1, hdyn exe info, by simp⟩
      · exact ⟨_, 2, hsta exe info, by simp⟩
    · cases static
      · exact ⟨_, 0, hscr exe info, by simp⟩
      · cases rest with
        | nil =>
          refine ⟨[info.ld_linux, absolute info.appdir "usr/bin/python3",
            absolute info.appdir ("usr/bin/" ++ exe)], 0, ?_, by simp⟩
          rw [wrapper_args_script_static_single]
          simp [List.replicate]
        | cons a r =>
          refine ⟨info.ld_linux :: absolute info.appdir "usr/bin/python3" ::
            absolute info.appdir ("usr/bin/" ++ exe) :: r, 1, ?_, by simp⟩
          rw [wrapper_args_script_static]
          simp [List.replicate]

end AppRun
